import Mathlib

set_option maxHeartbeats 1600000
set_option maxRecDepth 4096

/-!
Shallow embedding of the jsmn-based JSON-RPC engine of this repository
(src/jsmnrpc.c, src/jsmnrpc.h, src/jsmn.h).

Modelling conventions:
* C byte strings are `List Char`; a pointer into a NUL-terminated buffer is
  modelled as the suffix of the buffer starting at that pointer, with the end
  of the list standing for the NUL terminator.
* `size_t` quantities are `Nat`.  C `int` and the token coordinates
  (`jsmn_size_t`) are `Int`.  No claim in this development depends on
  fixed-width wraparound of these quantities; where a possibly-wrapped
  `size_t` is only compared against zero (the `first_len` counter of
  `str_are_equal`), an `Int` model decides that comparison exactly as the
  wrapped value does.
* An output accumulator `jsmnrpc_string_t` keeps its physical bytes in
  `data`; its `length` may exceed `capacity` exactly as in the C code.
-/

def nulChar : Char := Char.ofNat 0

def lbraceChar : Char := Char.ofNat 123

def rbraceChar : Char := Char.ofNat 125

/-- Reading through a C `char` pointer: the head of the remaining buffer,
where the end of the modelled buffer stands for the NUL terminator. -/
def headC : List Char → Char
  | [] => nulChar
  | c :: _ => c

/-- The `SIZE_MAX` sentinel that `append_str_with_len` interprets as
"compute the length with `str_len`". -/
def SIZE_MAX : Nat := 2 ^ 64 - 1

/-- src/jsmnrpc.c `str_len`: length up to the first NUL byte. -/
def str_len : List Char → Nat
  | [] => 0
  | c :: rest => if c = nulChar then 0 else str_len rest + 1

/-- src/jsmnrpc.c `str_are_equal(first, first_len, second_zero_ended)`.
`first` is the buffer suffix the first pointer points into, `first_len` the
byte count of the compared span (a `size_t` in C; modelled as `Int`, which
decides the final `first_len == 0` test exactly as the wrapped `size_t`
does).  The loop walks both strings while the zero-ended `second` has not
ended, `first` has not hit a NUL, and the bytes agree; it then reports
equality iff `second` is exhausted and `first_len` was counted down to 0. -/
def str_are_equal (first : List Char) (first_len : Int) (second_zero_ended : List Char) : Bool :=
  match second_zero_ended with
  | [] => decide (first_len = 0)
  | s :: ss =>
    if s ≠ nulChar ∧ headC first ≠ nulChar ∧ headC first = s then
      str_are_equal first.tail (first_len - 1) ss
    else
      decide (s = nulChar ∧ first_len = 0)

/-- Digits of `i`, least significant first, as produced by the do-while loop
of src/jsmnrpc.c `i_to_str` (at least one digit). -/
def i_to_str_digits (i : Nat) : List Char :=
  Char.ofNat (48 + i % 10) ::
    (if h : i / 10 = 0 then [] else i_to_str_digits (i / 10))
termination_by i
decreasing_by
  exact Nat.div_lt_self (by omega) (by omega)

/-- src/jsmnrpc.c `i_to_str`: sign, then decimal digits most significant
first. -/
def i_to_str (i : Int) : List Char :=
  (if i < 0 then ['-'] else []) ++ (i_to_str_digits i.natAbs).reverse

/-- src/jsmnrpc.c `int_val(symbol, result)`: returns `(value_ok, result)`.
On failure `correct_by` stays 0, so the written result is the raw byte. -/
def int_val (symbol : Char) : Int × Int :=
  if '0' ≤ symbol ∧ symbol ≤ '9' then
    (1, (symbol.toNat : Int) - ('0'.toNat : Int))
  else if 'A' ≤ symbol ∧ symbol ≤ 'F' then
    (1, (symbol.toNat : Int) - (('A'.toNat : Int) - 10))
  else if 'a' ≤ symbol ∧ symbol ≤ 'f' then
    (1, (symbol.toNat : Int) - (('a'.toNat : Int) - 10))
  else
    (0, (symbol.toNat : Int))

/-- The accumulation loop of src/jsmnrpc.c `str_to_i` (lines 586-600):
at each index the accumulator is first multiplied by the base (except at
`val_start`), then the digit is validated and added; an invalid digit or a
digit value above the base stops with `extracted_ok = 0`, keeping the
partial accumulator.  Returns `(extracted_ok, result-before-sign)`.
The first `Nat` argument is structural-recursion fuel: the index `i`
advances in lockstep with it, so whenever the initial fuel is at least
`length - i` (the caller passes `length`), exhaustion can only happen with
`i ≥ length` and returns exactly the loop-end result. -/
def str_to_i_loop (base : Int) (start : List Char) (val_start length : Nat) :
    Nat → Nat → Int → Int × Int
  | 0, _, acc => (1, acc)
  | fuel + 1, i, acc =>
    if i < length then
      let acc := if i > val_start then acc * base else acc
      let v := int_val (start.getD i nulChar)
      if v.1 = 0 ∨ v.2 > base then (0, acc)
      else str_to_i_loop base start val_start length fuel (i + 1) (acc + v.2)
    else (1, acc)

/-- src/jsmnrpc.c `str_to_i(start, length, result)`: optional leading `-`,
then base detection (`0x` prefix: 16, other leading zero: 8, else 10, only
attempted when more than two characters follow the sign position), then the
digit loop; the sign is applied to the result unconditionally at the end.
Returns `(extracted_ok, result)`. -/
def str_to_i (start : List Char) (length : Nat) : Int × Int :=
  let negative := 0 < length ∧ start.getD 0 nulChar = '-'
  let sign : Int := if negative then -1 else 1
  let val_start : Nat := if negative then 1 else 0
  let bv : Int × Nat :=
    if length > val_start + 2 ∧ start.getD val_start nulChar = '0' then
      if start.getD (val_start + 1) nulChar = 'x' then (16, val_start + 2)
      else (8, val_start + 1)
    else (10, val_start)
  let r := str_to_i_loop bv.1 start bv.2 length length bv.2 0
  (r.1, r.2 * sign)

/-- src/jsmnrpc.h `jsmnrpc_string_t`: a byte buffer (`data`, physical
contents), its logical `length` and its physical `capacity`.  The same type
serves as a non-owning view (`capacity = 0`) into the request buffer. -/
structure jsmnrpc_string where
  data : List Char
  length : Nat
  capacity : Nat
deriving Repr, DecidableEq

/-- The byte-copy loop of `append_str_with_len`: writes `src` into `dest`
starting at index `pos`. -/
def writeBytes (dest : List Char) (pos : Nat) (src : List Char) : List Char :=
  match src with
  | [] => dest
  | c :: rest => writeBytes (dest.set pos c) (pos + 1) rest

/-- src/jsmnrpc.c `append_str_with_len(str, from, len)`: `len = SIZE_MAX`
means "use `str_len(from)`".  The logical length always grows by `len`; the
bytes are copied only when the grown length is still strictly below the
capacity (all-or-nothing).  `src.take len` models reading `len` bytes from
the source pointer (callers always supply `len` no larger than the source). -/
def append_str_with_len (str : jsmnrpc_string) (src : List Char) (len : Nat) : jsmnrpc_string :=
  let len := if len = SIZE_MAX then str_len src else len
  let saved_len := str.length
  let new_len := str.length + len
  if new_len < str.capacity then
    { str with length := new_len, data := writeBytes str.data saved_len (src.take len) }
  else
    { str with length := new_len }

/-- src/jsmnrpc.c `append_str`. -/
def append_str (str : jsmnrpc_string) (rpc_str : jsmnrpc_string) : jsmnrpc_string :=
  append_str_with_len str rpc_str.data rpc_str.length

/-- The logical content of an output accumulator: the prefix of the physical
buffer of logical length (coincides with what was appended as long as no
append overflowed the capacity). -/
def contentOf (s : jsmnrpc_string) : List Char := s.data.take s.length

/-- src/jsmn.h `jsmntype_t`. -/
inductive jsmntype where
  | JSMN_UNDEFINED
  | JSMN_OBJECT
  | JSMN_ARRAY
  | JSMN_STRING
  | JSMN_PRIMITIVE
deriving Repr, DecidableEq

open jsmntype

/-- src/jsmn.h `jsmntok_t` (`end` is a Lean keyword, rendered `tok_end`). -/
structure jsmntok where
  type : jsmntype
  start : Int
  tok_end : Int
  size : Int
  parent : Int
deriving Repr, DecidableEq

/-- The value a freshly allocated jsmn token holds before being filled. -/
def emptyTok : jsmntok := ⟨JSMN_UNDEFINED, -1, -1, 0, -1⟩

/-- src/jsmnrpc.h `jsmnrpc_token_list_t` (the embedded `jsmn_parser` cursor
is threaded inside `jsmn_parse` instead of being stored). -/
structure jsmnrpc_token_list where
  json : List Char
  data : List jsmntok
  length : Int
  capacity : Int
deriving Repr, DecidableEq

/-- Reading `tokens->data[i]` (guarded by the callers' range checks). -/
def tokData (tokens : jsmnrpc_token_list) (i : Int) : jsmntok :=
  tokens.data.getD i.toNat emptyTok

/-- src/jsmnrpc.c `jsmnrpc_get_string`: a zero-copy view
`[start, end)` into the request buffer; the view's `data` is the buffer
suffix starting at `start`, its `length` is `end - start`. -/
def jsmnrpc_get_string (tokens : jsmnrpc_token_list) (token : Int) : jsmnrpc_string :=
  if token < 0 then
    { data := [], length := 0, capacity := 0 }
  else
    { data := tokens.json.drop (tokData tokens token).start.toNat,
      length := ((tokData tokens token).tok_end - (tokData tokens token).start).toNat,
      capacity := 0 }

/-- The scan loop of src/jsmnrpc.c `jsmnrpc_get_value` (lines 424-449):
walks indices `i` upward, considering only tokens whose `parent` is the
queried `token_offset`; for an Object container a matching key answers with
the following token, guarded by the protecting check (lines 432-435); for an
Array container the `index`-th child answers.  The `Nat` argument is
structural-recursion fuel advancing in lockstep with `i`: whenever the
initial fuel is at least `tokens.length - i`, exhaustion can only happen
with `i ≥ tokens.length` and returns exactly the loop-end result -1. -/
def jsmnrpc_get_value_loop (tokens : jsmnrpc_token_list) (token_offset index : Int)
    (key : Option (List Char)) (node_type : jsmntype) :
    Nat → Int → Int → Int
  | 0, _, _ => -1
  | fuel + 1, i, offset =>
    if i < tokens.length then
      let token := tokData tokens i
      if token.parent = token_offset then
        let str := jsmnrpc_get_string tokens i
        if node_type = JSMN_OBJECT then
          if str_are_equal str.data (str.length : Int) (key.getD []) then
            let result := i + 1
            if result ≥ tokens.length ∨ (tokData tokens result).parent ≠ i then -1 else result
          else
            jsmnrpc_get_value_loop tokens token_offset index key node_type fuel (i + 1) offset
        else
          if offset = index then i
          else
            jsmnrpc_get_value_loop tokens token_offset index key node_type fuel (i + 1)
              (offset + 1)
      else
        jsmnrpc_get_value_loop tokens token_offset index key node_type fuel (i + 1) offset
    else -1

/-- src/jsmnrpc.c `jsmnrpc_get_value(tokens, token_offset, index, key)`:
`key = none` models a NULL key pointer.  A negative `token_offset` answers
-1; a scalar token answers the immediately following token when that token
is its child, else itself; Object/Array containers are scanned by
`jsmnrpc_get_value_loop`. -/
def jsmnrpc_get_value (tokens : jsmnrpc_token_list) (token_offset index : Int)
    (key : Option (List Char)) : Int :=
  if 0 ≤ token_offset then
    let node := tokData tokens token_offset
    if node.type = JSMN_ARRAY ∧ index < 0 then -1
    else if node.type = JSMN_OBJECT ∧ key = none then -1
    else if node.type ≠ JSMN_ARRAY ∧ node.type ≠ JSMN_OBJECT then
      if token_offset + 1 < tokens.length ∧
          (tokData tokens (token_offset + 1)).parent = token_offset then
        token_offset + 1
      else token_offset
    else
      jsmnrpc_get_value_loop tokens token_offset index key node.type tokens.length.toNat
        (token_offset + 1) 0
  else -1

/-! ### The tokenizer

The tokenizer implementation (jsmn.c) is not part of src/ — only its header
src/jsmn.h is.  The definitions of this section are therefore modelled from
the spec (section 4.1): a single-pass cursor over the byte buffer producing
a flat, capacity-bounded array of tokens with parent linkage, in strict
mode (quoted keys only, the recognised escape sequences only, primitives
ended by a delimiter), with the three failure conditions `capacity
exceeded` (NOMEM), `invalid character` (INVAL) and `incomplete input`
(PART) of src/jsmn.h. -/

def JSMN_ERROR_NOMEM : Int := -1

def JSMN_ERROR_INVAL : Int := -2

def JSMN_ERROR_PART : Int := -3

/-- Modelled from the spec: the tokenizer cursor (src/jsmn.h `jsmn_parser`:
byte position, next token slot, innermost open container), together with the
token array produced so far (`toknext = tokens.length`). -/
structure JsmnCursor where
  pos : Nat
  toknext : Nat
  toksuper : Int
  tokens : List jsmntok
deriving Repr

/-- Modelled from the spec: allocating the next token slot; production
beyond the capacity is a `capacity exceeded` failure. -/
def jsmn_alloc_token (st : JsmnCursor) (num_tokens : Nat) (tok : jsmntok) : Option JsmnCursor :=
  if num_tokens ≤ st.toknext then none
  else some { st with toknext := st.toknext + 1, tokens := st.tokens ++ [tok] }

/-- Incrementing the recorded child count of token `i`. -/
def bumpTokSize (toks : List jsmntok) (i : Nat) : List jsmntok :=
  toks.set i { toks.getD i emptyTok with size := (toks.getD i emptyTok).size + 1 }

def isHexChar (c : Char) : Bool :=
  ('0' ≤ c ∧ c ≤ '9') ∨ ('A' ≤ c ∧ c ≤ 'F') ∨ ('a' ≤ c ∧ c ≤ 'f')

/-- Modelled from the spec: validating up to `k` hexadecimal digits of a
`\uXXXX` escape starting at `p` (stopping early at end of buffer or NUL);
returns `(ok, digits seen)`. -/
def jsmn_hex_scan (js : List Char) (len p k : Nat) : Int × Nat :=
  match k with
  | 0 => (1, 0)
  | k + 1 =>
    if p < len ∧ js.getD p nulChar ≠ nulChar then
      if isHexChar (js.getD p nulChar) then
        let r := jsmn_hex_scan js len (p + 1) k
        (r.1, r.2 + 1)
      else (0, 0)
    else (1, 0)

/-- Modelled from the spec: scanning a String token's characters from `p`
(the position after the opening quote) to the unescaped closing quote;
accepts exactly the escapes `\" \/ \\ \b \f \n \r \t \uXXXX`; any other
escape is an `invalid character` failure and an unterminated string is an
`incomplete input` failure.  Returns the offset of the closing quote from
`p`.  The `Nat` argument is structural-recursion fuel; `p` advances at
least as fast, so whenever the initial fuel is at least `len - p` (the
callers pass `len`), exhaustion can only happen with `p ≥ len` and returns
exactly the end-of-buffer result. -/
def jsmn_string_scan (js : List Char) (len : Nat) : Nat → Nat → Except Int Nat
  | 0, _ => Except.error JSMN_ERROR_PART
  | fuel + 1, p =>
    if p < len ∧ js.getD p nulChar ≠ nulChar then
      let c := js.getD p nulChar
      if c = '\"' then Except.ok 0
      else if c = '\\' ∧ p + 1 < len then
        let e := js.getD (p + 1) nulChar
        if e = '\"' ∨ e = '/' ∨ e = '\\' ∨ e = 'b' ∨ e = 'f' ∨ e = 'r' ∨ e = 'n' ∨ e = 't' then
          match jsmn_string_scan js len fuel (p + 2) with
          | Except.error er => Except.error er
          | Except.ok d => Except.ok (d + 2)
        else if e = 'u' then
          let hx := jsmn_hex_scan js len (p + 2) 4
          if hx.1 = 0 then Except.error JSMN_ERROR_INVAL
          else
            match jsmn_string_scan js len fuel (p + 2 + hx.2) with
            | Except.error er => Except.error er
            | Except.ok d => Except.ok (d + 2 + hx.2)
        else Except.error JSMN_ERROR_INVAL
      else
        match jsmn_string_scan js len fuel (p + 1) with
        | Except.error er => Except.error er
        | Except.ok d => Except.ok (d + 1)
    else Except.error JSMN_ERROR_PART

/-- Modelled from the spec: scanning a Primitive token from `p` (the
position after its first byte, which the caller has already checked to be a
primitive starter) to the next delimiter (`, } ] :`-free strict set: tab,
CR, LF, space, comma, closing bracket, closing brace); a control or
non-ASCII byte is an `invalid character` failure; in strict mode reaching
the end of the buffer without a delimiter is an `incomplete input` failure.
Returns the offset of the delimiter from `p`.  The `Nat` argument is
structural-recursion fuel advancing in lockstep with `p` (the callers pass
`len`, so exhaustion coincides with the end-of-buffer result). -/
def jsmn_primitive_scan (js : List Char) (len : Nat) : Nat → Nat → Except Int Nat
  | 0, _ => Except.error JSMN_ERROR_PART
  | fuel + 1, p =>
    if p < len ∧ js.getD p nulChar ≠ nulChar then
      let c := js.getD p nulChar
      if c = '\t' ∨ c = '\r' ∨ c = '\n' ∨ c = ' ' ∨ c = ',' ∨ c = ']' ∨ c = rbraceChar then
        Except.ok 0
      else if c.toNat < 32 ∨ 127 ≤ c.toNat then Except.error JSMN_ERROR_INVAL
      else
        match jsmn_primitive_scan js len fuel (p + 1) with
        | Except.error er => Except.error er
        | Except.ok d => Except.ok (d + 1)
    else Except.error JSMN_ERROR_PART

/-- Modelled from the spec: closing an Object/Array: walk from the most
recent token up the parent links to the innermost still-open container,
record its end, and restore its parent as the current open container; a
type mismatch (or no open container) is an `invalid character` failure.
Token parents strictly decrease, so `fuel` (instantiated to more than the
token count) never runs out. -/
def jsmn_close_walk (tokens : List jsmntok) (ctype : jsmntype) (pos : Nat) (toksuper : Int)
    (i : Nat) (fuel : Nat) : Except Int (List jsmntok × Int) :=
  match fuel with
  | 0 => Except.error JSMN_ERROR_INVAL
  | fuel + 1 =>
    let token := tokens.getD i emptyTok
    if token.start ≠ -1 ∧ token.tok_end = -1 then
      if token.type ≠ ctype then Except.error JSMN_ERROR_INVAL
      else Except.ok (tokens.set i { token with tok_end := (pos : Int) + 1 }, token.parent)
    else if token.parent = -1 then
      if token.type ≠ ctype ∨ toksuper = -1 then Except.error JSMN_ERROR_INVAL
      else Except.ok (tokens, toksuper)
    else jsmn_close_walk tokens ctype pos toksuper token.parent.toNat fuel

/-- Modelled from the spec: the tokenizer's main single pass.  Each byte is
dispatched as in section 4.1: open/close delimiters maintain the current
open container, `"` begins a String token, `:` makes the preceding key the
current container, `,` restores the enclosing container after a scalar
member, whitespace is skipped, a primitive starter begins a Primitive token
(rejected in strict mode where an object key is expected), and any other
byte is an `invalid character` failure.  Returns the final cursor and the
token count.  The `Nat` argument is structural-recursion fuel; the byte
position strictly increases with every iteration, so whenever the initial
fuel is at least `len - pos` (`jsmn_parse` passes `len`), exhaustion can
only happen at the end of the buffer and returns exactly the end-of-pass
result. -/
def jsmn_parse_loop (js : List Char) (len num_tokens : Nat) :
    Nat → JsmnCursor → Int → Except Int (JsmnCursor × Int)
  | 0, st, count => Except.ok (st, count)
  | fuel + 1, st, count =>
    if st.pos < len ∧ js.getD st.pos nulChar ≠ nulChar then
      let c := js.getD st.pos nulChar
      if c = lbraceChar ∨ c = '[' then
        let ntype := if c = lbraceChar then JSMN_OBJECT else JSMN_ARRAY
        match jsmn_alloc_token st num_tokens ⟨ntype, (st.pos : Int), -1, 0, st.toksuper⟩ with
        | none => Except.error JSMN_ERROR_NOMEM
        | some st1 =>
          if 0 ≤ st.toksuper then
            if (st1.tokens.getD st.toksuper.toNat emptyTok).type = JSMN_OBJECT then
              Except.error JSMN_ERROR_INVAL
            else
              jsmn_parse_loop js len num_tokens fuel
                { st1 with tokens := bumpTokSize st1.tokens st.toksuper.toNat,
                           toksuper := (st1.toknext : Int) - 1, pos := st.pos + 1 } (count + 1)
          else
            jsmn_parse_loop js len num_tokens fuel
              { st1 with toksuper := (st1.toknext : Int) - 1, pos := st.pos + 1 } (count + 1)
      else if c = rbraceChar ∨ c = ']' then
        let ctype := if c = rbraceChar then JSMN_OBJECT else JSMN_ARRAY
        if st.toknext < 1 then Except.error JSMN_ERROR_INVAL
        else
          match jsmn_close_walk st.tokens ctype st.pos st.toksuper (st.toknext - 1)
              (st.toknext + 1) with
          | Except.error e => Except.error e
          | Except.ok r =>
            jsmn_parse_loop js len num_tokens fuel
              { st with tokens := r.1, toksuper := r.2, pos := st.pos + 1 } count
      else if c = '\"' then
        match jsmn_string_scan js len len (st.pos + 1) with
        | Except.error e => Except.error e
        | Except.ok d =>
          let close := st.pos + 1 + d
          match jsmn_alloc_token st num_tokens
              ⟨JSMN_STRING, (st.pos : Int) + 1, (close : Int), 0, st.toksuper⟩ with
          | none => Except.error JSMN_ERROR_NOMEM
          | some st1 =>
            let st2 :=
              if 0 ≤ st.toksuper then
                { st1 with tokens := bumpTokSize st1.tokens st.toksuper.toNat }
              else st1
            jsmn_parse_loop js len num_tokens fuel { st2 with pos := close + 1 } (count + 1)
      else if c = '\t' ∨ c = '\r' ∨ c = '\n' ∨ c = ' ' then
        jsmn_parse_loop js len num_tokens fuel { st with pos := st.pos + 1 } count
      else if c = ':' then
        jsmn_parse_loop js len num_tokens fuel
          { st with toksuper := (st.toknext : Int) - 1, pos := st.pos + 1 } count
      else if c = ',' then
        let sup := st.tokens.getD st.toksuper.toNat emptyTok
        let st1 :=
          if 0 ≤ st.toksuper ∧ sup.type ≠ JSMN_ARRAY ∧ sup.type ≠ JSMN_OBJECT then
            { st with toksuper := sup.parent }
          else st
        jsmn_parse_loop js len num_tokens fuel { st1 with pos := st.pos + 1 } count
      else if c = '-' ∨ ('0' ≤ c ∧ c ≤ '9') ∨ c = 't' ∨ c = 'f' ∨ c = 'n' then
        let sup := st.tokens.getD st.toksuper.toNat emptyTok
        if 0 ≤ st.toksuper ∧ (sup.type = JSMN_OBJECT ∨ (sup.type = JSMN_STRING ∧ sup.size ≠ 0)) then
          Except.error JSMN_ERROR_INVAL
        else
          match jsmn_primitive_scan js len len (st.pos + 1) with
          | Except.error e => Except.error e
          | Except.ok d =>
            let fpos := st.pos + 1 + d
            match jsmn_alloc_token st num_tokens
                ⟨JSMN_PRIMITIVE, (st.pos : Int), (fpos : Int), 0, st.toksuper⟩ with
            | none => Except.error JSMN_ERROR_NOMEM
            | some st1 =>
              let st2 :=
                if 0 ≤ st.toksuper then
                  { st1 with tokens := bumpTokSize st1.tokens st.toksuper.toNat }
                else st1
              jsmn_parse_loop js len num_tokens fuel { st2 with pos := fpos } (count + 1)
      else Except.error JSMN_ERROR_INVAL
    else Except.ok (st, count)

/-- Modelled from the spec: `jsmn_parse(parser, js, len, tokens,
num_tokens)` (declared in src/jsmn.h): run the pass from a fresh cursor;
afterwards any still-open container is an `incomplete input` failure;
otherwise the produced token count is returned together with the tokens. -/
def jsmn_parse (js : List Char) (len num_tokens : Nat) : Int × List jsmntok :=
  match jsmn_parse_loop js len num_tokens len ⟨0, 0, -1, []⟩ 0 with
  | Except.error e => (e, [])
  | Except.ok r =>
    if r.1.tokens.any (fun t => t.start ≠ -1 ∧ t.tok_end = -1) then (JSMN_ERROR_PART, [])
    else (r.2, r.1.tokens)

/-- src/jsmnrpc.c `jsmnrpc_parse(tokens, str)`: reset, tokenize the request,
record the token count as the list's length, succeed iff it is positive.
(On failure the C code leaves the previous array storage in place; the
failed contents are never read back, and are modelled as empty.) -/
def jsmnrpc_parse (tokens : jsmnrpc_token_list) (str : jsmnrpc_string) : Bool × jsmnrpc_token_list :=
  let r := jsmn_parse str.data str.length tokens.capacity.toNat
  let tokens' : jsmnrpc_token_list :=
    { tokens with json := str.data, data := r.2, length := r.1 }
  (r.1 > 0, tokens')

/-! ### The JSON-RPC layer (src/jsmnrpc.c) -/

def jsmnrpc_err_parse_error : Int := 0

def jsmnrpc_err_invalid_request : Int := 1

def jsmnrpc_err_method_not_found : Int := 2

def jsmnrpc_err_invalid_params : Int := 3

def jsmnrpc_err_internal_error : Int := 4

def jsmnrpc_err_count : Int := 5

def jsmnrpc_request_is_notification : Nat := 1

def jsmnrpc_request_is_rpc_20 : Nat := 2

/-- src/jsmnrpc.c `jsmnrpc_err_codes`: `(error_code, error_msg)` pairs. -/
def jsmnrpc_err_codes : List (List Char × List Char) :=
  [("-32700".toList, "Parse error".toList),
   ("-32600".toList, "Invalid Request".toList),
   ("-32601".toList, "Method not found".toList),
   ("-32602".toList, "Invalid params".toList),
   ("-32603".toList, "Internal error".toList)]

def response_1x_prefix : List Char := "\x7b".toList

def response_20_prefix : List Char := "\x7b\"jsonrpc\": \"2.0\"".toList

/-- The literal `{"jsonrpc":"2.0",` that src/jsmnrpc.c line 342 compares the
whitespace-stripped request prefix against. -/
def jsonrpc20_probe : List Char := "\x7b\"jsonrpc\":\"2.0\",".toList

def jsmnrpc_key_jsonrpc : List Char := "jsonrpc".toList

def jsmnrpc_key_method : List Char := "method".toList

def jsmnrpc_key_params : List Char := "params".toList

def jsmnrpc_key_id : List Char := "id".toList

/-- src/jsmnrpc.h `jsmnrpc_data_t`: request/response buffers and the token
list (the opaque user pointer `arg` and the unused `info_flags` field are
not modelled). -/
structure jsmnrpc_data where
  request : jsmnrpc_string
  response : jsmnrpc_string
  tokens : jsmnrpc_token_list
deriving Repr, DecidableEq

/-- src/jsmnrpc.h `jsmnrpc_request_info_t`: the indices into the token list
and the flag set of one request envelope (the `data` back-pointer is passed
alongside instead of being stored). -/
structure jsmnrpc_request_info where
  params_value_token : Int
  id_value_token : Int
  info_flags : Nat
deriving Repr, DecidableEq

/-- src/jsmnrpc.h `jsmnrpc_handler_t`: a registered method name and its
callback; the callback receives the request info and transforms the rpc
data (in C it mutates through the `data` pointer of the info). -/
structure jsmnrpc_handler where
  handler_name : List Char
  handler : jsmnrpc_request_info → jsmnrpc_data → jsmnrpc_data

/-- src/jsmnrpc.h `jsmnrpc_instance_t`: the registered handlers
(`num_of_handlers` is the list length; the unused registration capacity is
not modelled). -/
structure jsmnrpc_instance where
  handlers : List jsmnrpc_handler

def emptyHandler : jsmnrpc_handler := ⟨[], fun _ d => d⟩

/-- The scan of src/jsmnrpc.c `jsmnrpc_get_handler_id`, position `i`
onward. -/
def jsmnrpc_get_handler_id_loop (hs : List jsmnrpc_handler) (name : jsmnrpc_string)
    (i : Int) : Int :=
  match hs with
  | [] => -1
  | h :: rest =>
    if str_are_equal name.data (name.length : Int) h.handler_name then i
    else jsmnrpc_get_handler_id_loop rest name (i + 1)

/-- src/jsmnrpc.c `jsmnrpc_get_handler_id`: index of the first handler whose
name equals the method name, -1 if none. -/
def jsmnrpc_get_handler_id (self : jsmnrpc_instance) (name : jsmnrpc_string) : Int :=
  jsmnrpc_get_handler_id_loop self.handlers name 0

/-- src/jsmnrpc.c `jsmnrpc_create_error(err, err_msg, info)` (the C `info`
carries the `data` pointer, passed here alongside; a NULL `err_msg` is
modelled as `[]`, every call of interest resolves the message from the
table).  Note the `", "` batch separator is appended before the
notification check, and the parse-error case decides the envelope version
by comparing the whitespace-stripped 20-byte request prefix against
`{"jsonrpc":"2.0",` (the C scratch buffer is uninitialised past the
filtered bytes; the model reads the filtered bytes only, which decides the
17-byte comparison identically whenever the C behaviour is defined). -/
def jsmnrpc_create_error (err : Int) (err_msg : List Char) (info : jsmnrpc_request_info)
    (data : jsmnrpc_data) : jsmnrpc_data :=
  let pair :=
    if 0 ≤ err ∧ err < jsmnrpc_err_count then jsmnrpc_err_codes.getD err.toNat ([], [])
    else (i_to_str err, err_msg)
  let response := data.response
  let response :=
    if response.length > 2 then append_str_with_len response ", ".toList 2 else response
  if info.info_flags &&& jsmnrpc_request_is_notification ≠ 0 then
    { data with response := response }
  else
    let info_flags :=
      if err = jsmnrpc_err_parse_error then
        let request_filterd :=
          ((contentOf data.request).filter
            (fun ch => ch ≠ '\t' ∧ ch ≠ '\n' ∧ ch ≠ '\r' ∧ ch ≠ ' ')).take 20
        if str_are_equal request_filterd ((str_len jsonrpc20_probe : Nat) : Int) jsonrpc20_probe
        then info.info_flags ||| jsmnrpc_request_is_rpc_20
        else info.info_flags
      else info.info_flags
    let response :=
      if info_flags &&& jsmnrpc_request_is_rpc_20 ≠ 0 then
        append_str_with_len (append_str_with_len response response_20_prefix SIZE_MAX)
          ", ".toList SIZE_MAX
      else append_str_with_len response response_1x_prefix SIZE_MAX
    let response := append_str_with_len response "\"error\": \x7b\"code\": ".toList SIZE_MAX
    let response := append_str_with_len response pair.1 SIZE_MAX
    let response := append_str_with_len response ", \"message\": \"".toList SIZE_MAX
    let response := append_str_with_len response pair.2 SIZE_MAX
    let response := append_str_with_len response "\"\x7d".toList SIZE_MAX
    let response :=
      if 0 ≤ info.id_value_token ∨ err = jsmnrpc_err_invalid_request then
        let response := append_str_with_len response ", \"id\": ".toList SIZE_MAX
        if 0 ≤ info.id_value_token then
          append_str response (jsmnrpc_get_string data.tokens info.id_value_token)
        else append_str_with_len response "null".toList SIZE_MAX
      else response
    let response := append_str_with_len response "\x7d".toList SIZE_MAX
    { data with response := response }

/-- src/jsmnrpc.c `jsmnrpc_create_result_prefix(info)`: nothing for a
notification; otherwise the batch separator when prior content is present,
the protocol envelope opening (with an explicit `"error": null` member in
the 1.0 shape), and the echoed id when one was resolved. -/
def jsmnrpc_create_result_prefix (info : jsmnrpc_request_info) (data : jsmnrpc_data) :
    Bool × jsmnrpc_data :=
  if info.info_flags &&& jsmnrpc_request_is_notification = 0 then
    let response := data.response
    let response :=
      if response.length > 2 then append_str_with_len response ", ".toList 2 else response
    let response :=
      if info.info_flags &&& jsmnrpc_request_is_rpc_20 ≠ 0 then
        append_str_with_len response response_20_prefix SIZE_MAX
      else
        append_str_with_len (append_str_with_len response response_1x_prefix SIZE_MAX)
          "\"error\": null".toList SIZE_MAX
    let response :=
      if 0 ≤ info.id_value_token then
        append_str (append_str_with_len response ", \"id\": ".toList SIZE_MAX)
          (jsmnrpc_get_string data.tokens info.id_value_token)
      else response
    (true, { data with response := response })
  else (false, data)

/-- src/jsmnrpc.c `jsmnrpc_create_result(result_str, info)`. -/
def jsmnrpc_create_result (result_str : List Char) (info : jsmnrpc_request_info)
    (data : jsmnrpc_data) : jsmnrpc_data :=
  let r := jsmnrpc_create_result_prefix info data
  if r.1 then
    let response := r.2.response
    let response := append_str_with_len response ", \"result\": ".toList SIZE_MAX
    let response := append_str_with_len response result_str SIZE_MAX
    let response := append_str_with_len response "\x7d".toList SIZE_MAX
    { r.2 with response := response }
  else r.2

/-- The tail block of src/jsmnrpc.c `jsmnrpc_handle_request_single` (lines
183-199): the method member must resolve to a String token; a registered
handler is invoked, an unknown method answers `method not found`, a
missing/non-String method `invalid request`. -/
def jsmnrpc_method_stage (self : jsmnrpc_instance) (info : jsmnrpc_request_info)
    (data : jsmnrpc_data) (method_value_token : Int) : jsmnrpc_data :=
  if 0 ≤ method_value_token ∧ (tokData data.tokens method_value_token).type = JSMN_STRING then
    let str := jsmnrpc_get_string data.tokens method_value_token
    let handler_id := jsmnrpc_get_handler_id self str
    if 0 ≤ handler_id then
      (self.handlers.getD handler_id.toNat emptyHandler).handler info data
    else jsmnrpc_create_error jsmnrpc_err_method_not_found [] info data
  else jsmnrpc_create_error jsmnrpc_err_invalid_request [] info data

/-- src/jsmnrpc.c `jsmnrpc_handle_request_single(self, request_info,
token_id)`: resolve the four envelope members, decide protocol 2.0 from the
`jsonrpc` member's value, then apply the id rules — an absent id is a
notification under 2.0 but an invalid request under 1.0; a present id must
be a Primitive or String token, and a 1.0 id with literal text `null` marks
a notification — and finally dispatch on the method. -/
def jsmnrpc_handle_request_single (self : jsmnrpc_instance) (data : jsmnrpc_data)
    (token_id : Int) : jsmnrpc_data :=
  let tokens := data.tokens
  let method_value_token := jsmnrpc_get_value tokens token_id (-1) (some jsmnrpc_key_method)
  let jsonrpc_value_token := jsmnrpc_get_value tokens token_id (-1) (some jsmnrpc_key_jsonrpc)
  let params_value_token := jsmnrpc_get_value tokens token_id (-1) (some jsmnrpc_key_params)
  let id_value_token := jsmnrpc_get_value tokens token_id (-1) (some jsmnrpc_key_id)
  let info_flags : Nat :=
    if jsonrpc_value_token > 0 ∧
        str_are_equal (jsmnrpc_get_string tokens jsonrpc_value_token).data
          ((jsmnrpc_get_string tokens jsonrpc_value_token).length : Int) "2.0".toList
    then jsmnrpc_request_is_rpc_20 else 0
  if id_value_token < 0 then
    if info_flags &&& jsmnrpc_request_is_rpc_20 = 0 then
      jsmnrpc_create_error jsmnrpc_err_invalid_request []
        ⟨params_value_token, id_value_token, info_flags⟩ data
    else
      jsmnrpc_method_stage self
        ⟨params_value_token, id_value_token, info_flags ||| jsmnrpc_request_is_notification⟩
        data method_value_token
  else
    if (tokData tokens id_value_token).type ≠ JSMN_PRIMITIVE ∧
        (tokData tokens id_value_token).type ≠ JSMN_STRING then
      jsmnrpc_create_error jsmnrpc_err_invalid_request []
        ⟨params_value_token, id_value_token, info_flags⟩ data
    else
      let info_flags :=
        if info_flags &&& jsmnrpc_request_is_rpc_20 = 0 ∧
            str_are_equal (jsmnrpc_get_string tokens id_value_token).data
              ((jsmnrpc_get_string tokens id_value_token).length : Int) "null".toList
        then info_flags ||| jsmnrpc_request_is_notification
        else info_flags
      jsmnrpc_method_stage self ⟨params_value_token, id_value_token, info_flags⟩
        data method_value_token

/-- The batch loop of src/jsmnrpc.c `jsmnrpc_handle_request` (lines
247-251): every token whose parent is the root is handled as a single
request.  (`len0` snapshots `tokens->length`, which no code path of the
engine modifies during the loop.)  The `Nat` argument is
structural-recursion fuel advancing in lockstep with `i`; the caller passes
`len0.toNat`, so exhaustion can only happen with `i ≥ len0` and returns
exactly the loop-end result. -/
def jsmnrpc_handle_request_array_loop (self : jsmnrpc_instance) (len0 : Int) :
    Nat → jsmnrpc_data → Int → jsmnrpc_data
  | 0, data, _ => data
  | fuel + 1, data, i =>
    if i < len0 then
      let data' :=
        if (tokData data.tokens i).parent = 0 then jsmnrpc_handle_request_single self data i
        else data
      jsmnrpc_handle_request_array_loop self len0 fuel data' (i + 1)
    else data

/-- src/jsmnrpc.c `jsmnrpc_handle_request(self, request_data)`: reset the
response length, tokenize; a tokenization failure answers a parse error, a
root that is neither Object nor Array, or an empty Array, an invalid
request (all three returning early, before the null-termination step); an
Array root brackets the per-element responses, an Object root is handled as
a single request; finally, when the response capacity is positive, a NUL is
written at the logical length if it fits, else at `capacity - 1`. -/
def jsmnrpc_handle_request (self : jsmnrpc_instance) (request_data : jsmnrpc_data) :
    jsmnrpc_data :=
  let request_data :=
    { request_data with response := { request_data.response with length := 0 } }
  let pr := jsmnrpc_parse request_data.tokens request_data.request
  let request_data := { request_data with tokens := pr.2 }
  let info0 : jsmnrpc_request_info := ⟨-1, -1, 0⟩
  if pr.1 = false then
    jsmnrpc_create_error jsmnrpc_err_parse_error [] info0 request_data
  else
    let root_token := tokData request_data.tokens 0
    if root_token.type ≠ JSMN_ARRAY ∧ root_token.type ≠ JSMN_OBJECT then
      jsmnrpc_create_error jsmnrpc_err_invalid_request [] info0 request_data
    else if root_token.type = JSMN_ARRAY ∧ root_token.size < 1 then
      jsmnrpc_create_error jsmnrpc_err_invalid_request [] info0 request_data
    else
      let request_data :=
        if root_token.type = JSMN_ARRAY then
          let request_data :=
            { request_data with
              response := append_str_with_len request_data.response "[".toList SIZE_MAX }
          let request_data :=
            jsmnrpc_handle_request_array_loop self request_data.tokens.length
              request_data.tokens.length.toNat request_data 1
          { request_data with
            response := append_str_with_len request_data.response "]".toList SIZE_MAX }
        else jsmnrpc_handle_request_single self request_data 0
      let response := request_data.response
      if response.capacity > 0 then
        if response.length < response.capacity then
          { request_data with
            response := { response with data := response.data.set response.length nulChar } }
        else
          { request_data with
            response := { response with data := response.data.set (response.capacity - 1) nulChar } }
      else request_data

/-- The effective length appended by `append_str_with_len`. -/
def appendLen (src : List Char) (len : Nat) : Nat :=
  if len = SIZE_MAX then str_len src else len

/-- Token `j`'s source bytes compare equal (under `str_are_equal`) to the
zero-ended `key`. -/
def keyMatches (tokens : jsmnrpc_token_list) (j : Int) (key : List Char) : Prop :=
  str_are_equal (jsmnrpc_get_string tokens j).data
    ((jsmnrpc_get_string tokens j).length : Int) key = true

instance (tokens : jsmnrpc_token_list) (j : Int) (key : List Char) :
    Decidable (keyMatches tokens j key) := by
  unfold keyMatches
  infer_instance

/-- A concrete parsed token list for `{"a": 1, "a": 2}` — an Object whose
key `a` occurs twice (tokens as produced by the tokenizer: object, first
key, its value 1, second key, its value 2). -/
def dupKeyTokens : jsmnrpc_token_list :=
  { json := "\x7b\"a\": 1, \"a\": 2\x7d".toList,
    data := [⟨JSMN_OBJECT, 0, 16, 2, -1⟩, ⟨JSMN_STRING, 2, 3, 1, 0⟩,
             ⟨JSMN_PRIMITIVE, 6, 7, 0, 1⟩, ⟨JSMN_STRING, 10, 11, 1, 0⟩,
             ⟨JSMN_PRIMITIVE, 14, 15, 0, 3⟩],
    length := 5, capacity := 16 }

def appendAll (s : jsmnrpc_string) : List (List Char × Nat) → jsmnrpc_string
  | [] => s
  | p :: rest => appendAll (append_str_with_len s p.1 p.2) rest

def chunkBytes (p : List Char × Nat) : List Char := p.1.take (appendLen p.1 p.2)

def chunksBytes (l : List (List Char × Nat)) : List Char := (l.map chunkBytes).flatten

def chunksLen (l : List (List Char × Nat)) : Nat := (l.map (fun p => appendLen p.1 p.2)).sum

/-- Well-formed token span: the token's `[start, end)` window lies inside
the request buffer (and the buffer is far from the `SIZE_MAX` sentinel). -/
def goodTokenSpan (tokens : jsmnrpc_token_list) (t : Int) : Prop :=
  0 ≤ (tokData tokens t).start ∧ (tokData tokens t).start ≤ (tokData tokens t).tok_end ∧
    (tokData tokens t).tok_end ≤ (tokens.json.length : Int) ∧ tokens.json.length < SIZE_MAX

/-- The source bytes `[start, end)` of token `t` (what `append_str` copies
from the token's string view). -/
def token_bytes (tokens : jsmnrpc_token_list) (t : Int) : List Char :=
  (jsmnrpc_get_string tokens t).data.take (jsmnrpc_get_string tokens t).length

/-- The protocol-version flags after the parse-error envelope heuristic of
src/jsmnrpc.c lines 331-345: for a parse error, the 2.0 flag is set when
the whitespace-stripped 20-byte prefix of the raw request compares equal to
`{"jsonrpc":"2.0",`. -/
def parse_error_flags (err : Int) (info_flags : Nat) (request : jsmnrpc_string) : Nat :=
  if err = jsmnrpc_err_parse_error then
    let request_filterd :=
      ((contentOf request).filter
        (fun ch => ch ≠ '\t' ∧ ch ≠ '\n' ∧ ch ≠ '\r' ∧ ch ≠ ' ')).take 20
    if str_are_equal request_filterd ((str_len jsonrpc20_probe : Nat) : Int) jsonrpc20_probe
    then info_flags ||| jsmnrpc_request_is_rpc_20
    else info_flags
  else info_flags

/-- The chunk sequence `jsmnrpc_create_error` appends: the batch separator
(before the notification check), and unless the request is a notification,
the envelope prefix (after the parse-error heuristic), the error object,
the echoed or defaulted id, and the closing brace. -/
def error_chunks (err : Int) (err_msg : List Char) (info : jsmnrpc_request_info)
    (request : jsmnrpc_string) (tokens : jsmnrpc_token_list) (sep : Prop) [Decidable sep] :
    List (List Char × Nat) :=
  let pair :=
    if 0 ≤ err ∧ err < jsmnrpc_err_count then jsmnrpc_err_codes.getD err.toNat ([], [])
    else (i_to_str err, err_msg)
  (if sep then [(", ".toList, 2)] else []) ++
  (if info.info_flags &&& jsmnrpc_request_is_notification ≠ 0 then []
   else
    (if parse_error_flags err info.info_flags request &&& jsmnrpc_request_is_rpc_20 ≠ 0 then
      [( response_20_prefix, SIZE_MAX), (", ".toList, SIZE_MAX)]
     else [( response_1x_prefix, SIZE_MAX)]) ++
    [("\"error\": \x7b\"code\": ".toList, SIZE_MAX), (pair.1, SIZE_MAX),
     (", \"message\": \"".toList, SIZE_MAX), (pair.2, SIZE_MAX), ("\"\x7d".toList, SIZE_MAX)] ++
    (if 0 ≤ info.id_value_token ∨ err = jsmnrpc_err_invalid_request then
      (", \"id\": ".toList, SIZE_MAX) ::
        (if 0 ≤ info.id_value_token then
          [((jsmnrpc_get_string tokens info.id_value_token).data,
            (jsmnrpc_get_string tokens info.id_value_token).length)]
         else [("null".toList, SIZE_MAX)])
     else []) ++
    [("\x7d".toList, SIZE_MAX)])

/-- The chunk sequence `jsmnrpc_create_result_prefix` appends: nothing for
a notification; otherwise the batch separator when prior content is
present, the protocol envelope opening (with the explicit `"error": null`
member in the 1.0 shape), and the echoed id when one was resolved. -/
def result_prefix_chunks (info : jsmnrpc_request_info) (tokens : jsmnrpc_token_list)
    (sep : Prop) [Decidable sep] : List (List Char × Nat) :=
  if info.info_flags &&& jsmnrpc_request_is_notification = 0 then
    (if sep then [(", ".toList, 2)] else []) ++
    (if info.info_flags &&& jsmnrpc_request_is_rpc_20 ≠ 0 then [( response_20_prefix, SIZE_MAX)]
     else [( response_1x_prefix, SIZE_MAX), ("\"error\": null".toList, SIZE_MAX)]) ++
    (if 0 ≤ info.id_value_token then
      [(", \"id\": ".toList, SIZE_MAX),
       ((jsmnrpc_get_string tokens info.id_value_token).data,
        (jsmnrpc_get_string tokens info.id_value_token).length)]
     else [])
  else []

/-- The chunk sequence `jsmnrpc_create_result` appends: the prefix chunks
followed by the result member and the closing brace, or nothing for a
notification. -/
def result_chunks (result_str : List Char) (info : jsmnrpc_request_info)
    (tokens : jsmnrpc_token_list) (sep : Prop) [Decidable sep] : List (List Char × Nat) :=
  if info.info_flags &&& jsmnrpc_request_is_notification = 0 then
    result_prefix_chunks info tokens sep ++
    [(", \"result\": ".toList, SIZE_MAX), (result_str, SIZE_MAX), ("\x7d".toList, SIZE_MAX)]
  else []

/-- Concrete rpc data over `dupKeyTokens` with an empty 100-byte response
buffer, and an envelope whose id resolved to token 2 (the primitive `1`). -/
def c1data : jsmnrpc_data :=
  { request := ⟨[], 0, 0⟩, response := ⟨List.replicate 100 '@', 0, 100⟩,
    tokens := dupKeyTokens }

def c1info : jsmnrpc_request_info := ⟨-1, 2, 0⟩

/-- Concrete rpc data for the request `\x7b"method": "x"\x7d`: a 1.0 request
with no `id` member, an 8-token table and a 100-byte response buffer. -/
def c3data : jsmnrpc_data :=
  { request := ⟨"\x7b\"method\": \"x\"\x7d".toList, 15, 15⟩,
    response := ⟨List.replicate 100 '@', 0, 100⟩,
    tokens := ⟨[], [], 0, 8⟩ }

/-- Concrete rpc data for the truncated request `\x7b"method": "x",` on
which tokenization fails. -/
def c5data : jsmnrpc_data :=
  { request := ⟨"\x7b\"method\": \"x\",".toList, 15, 15⟩,
    response := ⟨List.replicate 100 '@', 0, 100⟩,
    tokens := ⟨[], [], 0, 8⟩ }

/-- Concrete rpc data for the 2.0 notification
`\x7b"jsonrpc": "2.0", "method": "x"\x7d` (no `id` member). -/
def c2data : jsmnrpc_data :=
  { request := ⟨"\x7b\"jsonrpc\": \"2.0\", \"method\": \"x\"\x7d".toList, 33, 33⟩,
    response := ⟨List.replicate 100 '@', 0, 100⟩,
    tokens := ⟨[], [], 0, 8⟩ }

/-- Concrete rpc data for the empty request, on which tokenization fails
and `jsmnrpc_handle_request` returns before its null-termination step. -/
def c6data : jsmnrpc_data :=
  { request := ⟨[], 0, 0⟩,
    response := ⟨List.replicate 100 '@', 0, 100⟩,
    tokens := ⟨[], [], 0, 8⟩ }

/-- Concrete rpc data for the request `\x7b"method": "x"\x7d` with a response
buffer of capacity 10 only: the 69-byte Invalid-Request response is
truncated. -/
def c6bdata : jsmnrpc_data :=
  { request := ⟨"\x7b\"method\": \"x\"\x7d".toList, 15, 15⟩,
    response := ⟨List.replicate 10 '@', 0, 10⟩,
    tokens := ⟨[], [], 0, 8⟩ }

/-- Concrete rpc data for the one-element batch `[1]` (the element fails
with Invalid Request, still yielding a bracketed response). -/
def c4wdata : jsmnrpc_data :=
  { request := ⟨"[1]".toList, 3, 3⟩,
    response := ⟨List.replicate 100 '@', 0, 100⟩,
    tokens := ⟨[], [], 0, 8⟩ }

/-! ### Basic lemmas about the bounded string builder -/

theorem char_le_iff_toNat (a b : Char) : a ≤ b ↔ a.toNat ≤ b.toNat := by
  simp [Char.le_def, UInt32.le_def, BitVec.le_def, Char.toNat, UInt32.toNat]

theorem getD_mem_of_lt (l : List Char) (n : Nat) (h : n < l.length) (d : Char) :
    l.getD n d ∈ l := by
  rw [List.getD_eq_getElem?_getD, List.getElem?_eq_getElem h]
  exact List.getElem_mem h

theorem writeBytes_length (src : List Char) (dest : List Char) (pos : Nat) :
    (writeBytes dest pos src).length = dest.length := by
  induction src generalizing dest pos with
  | nil => simp [writeBytes]
  | cons c rest ih => simp [writeBytes, ih]

theorem writeBytes_eq (src : List Char) (dest : List Char) (pos : Nat)
    (h : pos + src.length ≤ dest.length) :
    writeBytes dest pos src = dest.take pos ++ src ++ dest.drop (pos + src.length) := by
  induction src generalizing dest pos with
  | nil => simp [writeBytes]
  | cons c rest ih =>
    simp only [writeBytes]
    have hlt : pos < dest.length := by simp at h; omega
    rw [ih (dest.set pos c) (pos + 1) (by simp at h ⊢; omega)]
    rw [List.set_eq_take_cons_drop c hlt]
    rw [List.take_append_eq_append_take, List.drop_append_eq_append_drop]
    have hlen : (List.take pos dest).length = pos := by
      simp [List.length_take]
      omega
    rw [hlen]
    have e1 : pos + 1 - pos = 1 := by omega
    have e2 : pos + 1 + rest.length - pos = rest.length + 1 := by omega
    rw [e1, e2]
    have h1 : List.take (pos + 1) (List.take pos dest) = List.take pos dest := by
      rw [List.take_take]
      congr 1
      omega
    rw [h1]
    simp only [List.take_succ_cons, List.take_zero, List.drop_succ_cons, List.nil_append,
      List.drop_drop, List.singleton_append, List.cons_append, List.append_assoc]
    have h2 : List.drop (pos + 1 + rest.length) (List.take pos dest) = [] := by
      apply List.drop_eq_nil_of_le
      simp [List.length_take]
      omega
    have h4 : pos + 1 + rest.length = pos + (c :: rest).length := by
      simp
      omega
    rw [h2, h4]
    simp

theorem writeBytes_getD_ge (src : List Char) (dest : List Char) (pos i : Nat) (dflt : Char)
    (h : pos + src.length ≤ i) :
    (writeBytes dest pos src).getD i dflt = dest.getD i dflt := by
  induction src generalizing dest pos with
  | nil => simp [writeBytes]
  | cons c rest ih =>
    simp only [writeBytes]
    rw [ih (dest.set pos c) (pos + 1) (by simp at h ⊢; omega)]
    rw [List.getD_eq_getElem?_getD, List.getD_eq_getElem?_getD,
      List.getElem?_set_ne (by simp at h; omega)]

theorem append_eq (s : jsmnrpc_string) (src : List Char) (len : Nat) :
    append_str_with_len s src len =
      if s.length + appendLen src len < s.capacity then
        { s with length := s.length + appendLen src len,
                 data := writeBytes s.data s.length (src.take (appendLen src len)) }
      else { s with length := s.length + appendLen src len } := by
  unfold append_str_with_len appendLen
  dsimp only

theorem append_length (s : jsmnrpc_string) (src : List Char) (len : Nat) :
    (append_str_with_len s src len).length = s.length + appendLen src len := by
  rw [append_eq]
  first
  | rfl
  | split <;> rfl

theorem append_capacity (s : jsmnrpc_string) (src : List Char) (len : Nat) :
    (append_str_with_len s src len).capacity = s.capacity := by
  rw [append_eq]
  first
  | rfl
  | split <;> rfl

theorem append_data_length (s : jsmnrpc_string) (src : List Char) (len : Nat) :
    (append_str_with_len s src len).data.length = s.data.length := by
  rw [append_eq]
  split
  · exact writeBytes_length _ _ _
  · rfl

theorem append_getD_ge (s : jsmnrpc_string) (src : List Char) (len : Nat) (i : Nat)
    (dflt : Char) (h : s.capacity ≤ i) :
    (append_str_with_len s src len).data.getD i dflt = s.data.getD i dflt := by
  rw [append_eq]
  split
  · next hfit =>
    exact writeBytes_getD_ge _ _ _ _ _ (by simp only [List.length_take]; omega)
  · rfl

theorem contentOf_append (s : jsmnrpc_string) (src : List Char) (len : Nat)
    (hcap : s.capacity ≤ s.data.length)
    (hsrc : appendLen src len ≤ src.length)
    (hfit : s.length + appendLen src len < s.capacity) :
    contentOf (append_str_with_len s src len) = contentOf s ++ src.take (appendLen src len) := by
  rw [append_eq, if_pos hfit]
  unfold contentOf
  simp only
  rw [writeBytes_eq _ _ _ (by simp only [List.length_take]; omega)]
  rw [List.take_append_eq_append_take, List.take_append_eq_append_take]
  have h1 : (List.take s.length s.data).length = s.length := by
    simp only [List.length_take]
    omega
  have h2 : (List.take (appendLen src len) src).length = appendLen src len := by
    simp only [List.length_take]
    omega
  rw [h1, h2]
  have h3 : List.take (s.length + appendLen src len) (List.take s.length s.data) =
      List.take s.length s.data := by
    apply List.take_of_length_le
    omega
  rw [h3]
  have h4 : List.take (s.length + appendLen src len - s.length)
      (List.take (appendLen src len) src) = List.take (appendLen src len) src := by
    apply List.take_of_length_le
    omega
  rw [h4]
  simp only [List.length_append, h1, h2]
  have h5 : s.length + appendLen src len - (s.length + appendLen src len) = 0 := by omega
  rw [h5]
  simp

theorem str_are_equal_iff_prefix (lit : List Char) (hlit : nulChar ∉ lit) :
    ∀ (l : List Char) (n : Int),
      str_are_equal l n lit = true ↔ ((lit.length : Int) = n ∧ l.take lit.length = lit) := by
  induction lit with
  | nil =>
    intro l n
    simp [str_are_equal, eq_comm]
  | cons sc ss ih =>
    intro l n
    have hsc : sc ≠ nulChar := fun h => hlit (h ▸ List.mem_cons_self _ _)
    have hss : nulChar ∉ ss := fun h => hlit (List.mem_cons_of_mem _ h)
    unfold str_are_equal
    cases l with
    | nil =>
      rw [if_neg (by simp [headC])]
      simp [hsc]
    | cons c cs =>
      by_cases hc : c = sc
      · subst hc
        rw [if_pos ⟨hsc, by simp [headC, hsc], rfl⟩]
        simp only [List.tail_cons]
        rw [ih hss cs (n - 1)]
        simp only [List.length_cons, List.take_succ_cons, List.tail_cons, List.cons.injEq,
          true_and]
        constructor
        · rintro ⟨h1, h2⟩
          exact ⟨by push_cast; omega, h2⟩
        · rintro ⟨h1, h2⟩
          exact ⟨by push_cast at h1 ⊢; omega, h2⟩
      · rw [if_neg (by simp [headC]; intro _ _; exact fun h => hc h)]
        simp [hsc, hc]

/-! ### Numeric literal parsing (claim C9) -/

theorem int_val_digit (c : Char) (h : '0' ≤ c ∧ c ≤ '9') :
    (int_val c).1 = 1 ∧ 0 ≤ (int_val c).2 ∧ (int_val c).2 ≤ 9 := by
  have h1 := (char_le_iff_toNat '0' c).1 h.1
  have h2 := (char_le_iff_toNat c '9').1 h.2
  have e0 : Char.toNat '0' = 48 := rfl
  have e9 : Char.toNat '9' = 57 := rfl
  unfold int_val
  rw [if_pos h]
  refine ⟨rfl, ?_, ?_⟩ <;> · simp only [e0] at *; omega

theorem int_val_hex (c : Char)
    (h : ('0' ≤ c ∧ c ≤ '9') ∨ ('A' ≤ c ∧ c ≤ 'F') ∨ ('a' ≤ c ∧ c ≤ 'f')) :
    (int_val c).1 = 1 ∧ 0 ≤ (int_val c).2 ∧ (int_val c).2 ≤ 15 := by
  rcases h with h | h | h
  · have := int_val_digit c h
    exact ⟨this.1, this.2.1, by omega⟩
  · have h1 := (char_le_iff_toNat 'A' c).1 h.1
    have h2 := (char_le_iff_toNat c 'F').1 h.2
    have eA : Char.toNat 'A' = 65 := rfl
    have eF : Char.toNat 'F' = 70 := rfl
    rw [eA] at h1
    rw [eF] at h2
    have hnd : ¬('0' ≤ c ∧ c ≤ '9') := by
      rw [char_le_iff_toNat, char_le_iff_toNat]
      have e9 : Char.toNat '9' = 57 := rfl
      rw [e9]
      omega
    unfold int_val
    rw [if_neg hnd, if_pos h]
    refine ⟨rfl, ?_, ?_⟩ <;> · dsimp only; rw [eA]; omega
  · have h1 := (char_le_iff_toNat 'a' c).1 h.1
    have h2 := (char_le_iff_toNat c 'f').1 h.2
    have ea : Char.toNat 'a' = 97 := rfl
    have ef : Char.toNat 'f' = 102 := rfl
    rw [ea] at h1
    rw [ef] at h2
    have hnd : ¬('0' ≤ c ∧ c ≤ '9') := by
      rw [char_le_iff_toNat, char_le_iff_toNat]
      have e9 : Char.toNat '9' = 57 := rfl
      rw [e9]
      omega
    have hnA : ¬('A' ≤ c ∧ c ≤ 'F') := by
      rw [char_le_iff_toNat, char_le_iff_toNat]
      have eF : Char.toNat 'F' = 70 := rfl
      rw [eF]
      omega
    unfold int_val
    rw [if_neg hnd, if_neg hnA, if_pos h]
    refine ⟨rfl, ?_, ?_⟩ <;> · dsimp only; rw [ea]; omega

theorem str_to_i_loop_ok (base : Int) (start : List Char) (val_start length : Nat) :
    ∀ (fuel i : Nat) (acc : Int),
      (∀ idx, i ≤ idx → idx < length →
        (int_val (start.getD idx nulChar)).1 = 1 ∧
          (int_val (start.getD idx nulChar)).2 ≤ base) →
      (str_to_i_loop base start val_start length fuel i acc).1 = 1 := by
  intro fuel
  induction fuel with
  | zero =>
    intro i acc h
    rfl
  | succ fuel ih =>
    intro i acc h
    simp only [str_to_i_loop]
    split
    · next hi =>
      have hd := h i (Nat.le_refl i) hi
      rw [if_neg (by rcases hd with ⟨h1, h2⟩; omega)]
      exact ih (i + 1) _ (fun idx h1 h2 => h idx (by omega) h2)
    · rfl

/-- C9: `str_to_i` accepts decimal literals (the leading character not `0`
unless the literal is at most two characters long, which would instead
trigger the octal rule), `0x`-prefixed hexadecimal literals and
leading-zero octal literals, each with an optional leading `-`; in
particular on the 5-byte string `-0x17` it succeeds with value -23, and on
the 4-byte string `-055` it succeeds with value -45. -/
theorem claim_C9_str_to_i (dec hex oct : List Char)
    (hdec_ne : dec ≠ []) (hdec : ∀ c ∈ dec, '0' ≤ c ∧ c ≤ '9')
    (hdec_lead : dec.length ≤ 2 ∨ dec.getD 0 nulChar ≠ '0')
    (hhex_ne : hex ≠ [])
    (hhex : ∀ c ∈ hex, ('0' ≤ c ∧ c ≤ '9') ∨ ('A' ≤ c ∧ c ≤ 'F') ∨ ('a' ≤ c ∧ c ≤ 'f'))
    (hoct_ne : oct ≠ []) (hoct : ∀ c ∈ oct, '0' ≤ c ∧ c ≤ '7') :
    (str_to_i dec dec.length).1 = 1 ∧
    (str_to_i ('-' :: dec) (dec.length + 1)).1 = 1 ∧
    (str_to_i ('0' :: 'x' :: hex) (hex.length + 2)).1 = 1 ∧
    (str_to_i ('-' :: '0' :: 'x' :: hex) (hex.length + 3)).1 = 1 ∧
    (str_to_i ('0' :: oct) (oct.length + 1)).1 = 1 ∧
    (str_to_i ('-' :: '0' :: oct) (oct.length + 2)).1 = 1 ∧
    str_to_i "-0x17".toList 5 = (1, -23) ∧
    str_to_i "-055".toList 4 = (1, -45) := by
  have oct_digit : ∀ c ∈ oct, '0' ≤ c ∧ c ≤ '9' := by
    intro c hc
    rcases hoct c hc with ⟨hl, hr⟩
    refine ⟨hl, ?_⟩
    rw [char_le_iff_toNat] at hr ⊢
    have e7 : Char.toNat '7' = 55 := rfl
    have e9 : Char.toNat '9' = 57 := rfl
    omega
  have oct_le7 : ∀ c ∈ oct, (int_val c).2 ≤ 7 := by
    intro c hc
    rcases hoct c hc with ⟨hl, hr⟩
    have h1 := (char_le_iff_toNat c '7').1 hr
    have e7 : Char.toNat '7' = 55 := rfl
    rw [e7] at h1
    unfold int_val
    rw [if_pos (oct_digit c hc)]
    dsimp only
    have e0 : Char.toNat '0' = 48 := rfl
    rw [e0]
    omega
  have hd0 : ∀ c ∈ dec, c ≠ '-' := by
    intro c hc he
    have := (char_le_iff_toNat '0' c).1 (hdec c hc).1
    rw [he] at this
    exact absurd this (by decide)
  have hex_ok : ∀ c ∈ hex, (int_val c).1 = 1 ∧ (int_val c).2 ≤ (16 : Int) := by
    intro c hc
    have h := int_val_hex c (hhex c hc)
    exact ⟨h.1, by omega⟩
  have dec_ok : ∀ c ∈ dec, (int_val c).1 = 1 ∧ (int_val c).2 ≤ (10 : Int) := by
    intro c hc
    have h := int_val_digit c (hdec c hc)
    exact ⟨h.1, by omega⟩
  have oct_ok8 : ∀ c ∈ oct, (int_val c).1 = 1 ∧ (int_val c).2 ≤ (8 : Int) := by
    intro c hc
    have h := int_val_digit c (oct_digit c hc)
    exact ⟨h.1, by have := oct_le7 c hc; omega⟩
  have oct_ok10 : ∀ c ∈ oct, (int_val c).1 = 1 ∧ (int_val c).2 ≤ (10 : Int) := by
    intro c hc
    have h := int_val_digit c (oct_digit c hc)
    exact ⟨h.1, by omega⟩
  have zero_ok : ∀ b : Int, 8 ≤ b → (int_val '0').1 = 1 ∧ (int_val '0').2 ≤ b := by
    intro b hb
    have h : (int_val '0').1 = 1 ∧ (int_val '0').2 = 0 := by decide
    exact ⟨h.1, by omega⟩
  have hoct_pos : 0 < oct.length := List.length_pos.mpr hoct_ne
  have hhex_pos : 0 < hex.length := List.length_pos.mpr hhex_ne
  have hdec_pos : 0 < dec.length := List.length_pos.mpr hdec_ne
  have hoct_nx : oct.getD 0 nulChar ≠ 'x' := by
    intro he
    have hm := getD_mem_of_lt oct 0 hoct_pos nulChar
    have h7 := (char_le_iff_toNat _ '7').1 (hoct _ hm).2
    rw [he] at h7
    exact absurd h7 (by decide)
  refine ⟨?_, ?_, ?_, ?_, ?_, ?_, by decide, by decide⟩
  · -- plain decimal
    have hneg : ¬(0 < dec.length ∧ dec.getD 0 nulChar = '-') := by
      rintro ⟨hpos, heq⟩
      exact hd0 _ (getD_mem_of_lt dec 0 hpos nulChar) heq
    unfold str_to_i
    dsimp only
    simp only [eq_false hneg, if_false]
    rw [if_neg (by
      rintro ⟨h1, h2⟩
      rcases hdec_lead with h | h
      · omega
      · exact h h2)]
    dsimp only
    apply str_to_i_loop_ok
    intro idx h1 h2
    exact dec_ok _ (getD_mem_of_lt dec idx h2 nulChar)
  · -- negative decimal
    have hneg : 0 < dec.length + 1 ∧ ('-' :: dec).getD 0 nulChar = '-' := ⟨by omega, by simp⟩
    unfold str_to_i
    dsimp only
    simp only [eq_true hneg, if_true]
    rw [if_neg (by
      rintro ⟨h1, h2⟩
      simp only [List.getD_cons_succ] at h2
      rcases hdec_lead with h | h
      · omega
      · exact h h2)]
    dsimp only
    apply str_to_i_loop_ok
    intro idx hge hlt
    obtain ⟨j, rfl⟩ : ∃ j, idx = j + 1 := ⟨idx - 1, by omega⟩
    simp only [List.getD_cons_succ]
    exact dec_ok _ (getD_mem_of_lt dec j (by omega) nulChar)
  · -- hexadecimal
    have hneg : ¬(0 < hex.length + 2 ∧ ('0' :: 'x' :: hex).getD 0 nulChar = '-') := by
      rintro ⟨_, h⟩
      simp only [List.getD_cons_zero] at h
      exact absurd h (by decide)
    unfold str_to_i
    dsimp only
    simp only [eq_false hneg, if_false]
    rw [if_pos ⟨by omega, by simp⟩]
    rw [if_pos (by simp)]
    dsimp only
    apply str_to_i_loop_ok
    intro idx hge hlt
    obtain ⟨j, rfl⟩ : ∃ j, idx = j + 2 := ⟨idx - 2, by omega⟩
    simp only [List.getD_cons_succ]
    exact hex_ok _ (getD_mem_of_lt hex j (by omega) nulChar)
  · -- negative hexadecimal
    have hneg : 0 < hex.length + 3 ∧ ('-' :: '0' :: 'x' :: hex).getD 0 nulChar = '-' :=
      ⟨by omega, by simp⟩
    unfold str_to_i
    dsimp only
    simp only [eq_true hneg, if_true]
    rw [if_pos ⟨by omega, by simp⟩]
    rw [if_pos (by simp)]
    dsimp only
    apply str_to_i_loop_ok
    intro idx hge hlt
    obtain ⟨j, rfl⟩ : ∃ j, idx = j + 3 := ⟨idx - 3, by omega⟩
    simp only [List.getD_cons_succ]
    exact hex_ok _ (getD_mem_of_lt hex j (by omega) nulChar)
  · -- leading-zero octal
    have hneg : ¬(0 < oct.length + 1 ∧ ('0' :: oct).getD 0 nulChar = '-') := by
      rintro ⟨_, h⟩
      simp only [List.getD_cons_zero] at h
      exact absurd h (by decide)
    unfold str_to_i
    dsimp only
    simp only [eq_false hneg, if_false]
    by_cases hlen : oct.length + 1 > 0 + 2
    · rw [if_pos ⟨hlen, by simp⟩]
      rw [if_neg (by
        intro h
        simp only [List.getD_cons_succ] at h
        exact hoct_nx h)]
      dsimp only
      apply str_to_i_loop_ok
      intro idx hge hlt
      obtain ⟨j, rfl⟩ : ∃ j, idx = j + 1 := ⟨idx - 1, by omega⟩
      simp only [List.getD_cons_succ]
      exact oct_ok8 _ (getD_mem_of_lt oct j (by omega) nulChar)
    · rw [if_neg (by rintro ⟨h1, _⟩; exact hlen h1)]
      dsimp only
      apply str_to_i_loop_ok
      intro idx hge hlt
      cases idx with
      | zero =>
        simp only [List.getD_cons_zero]
        exact zero_ok 10 (by omega)
      | succ j =>
        simp only [List.getD_cons_succ]
        exact oct_ok10 _ (getD_mem_of_lt oct j (by simp at hlt; omega) nulChar)
  · -- negative leading-zero octal
    have hneg : 0 < oct.length + 2 ∧ ('-' :: '0' :: oct).getD 0 nulChar = '-' :=
      ⟨by omega, by simp⟩
    unfold str_to_i
    dsimp only
    simp only [eq_true hneg, if_true]
    by_cases hlen : oct.length + 2 > 1 + 2
    · rw [if_pos ⟨hlen, by simp⟩]
      rw [if_neg (by
        intro h
        simp only [List.getD_cons_succ] at h
        exact hoct_nx h)]
      dsimp only
      apply str_to_i_loop_ok
      intro idx hge hlt
      obtain ⟨j, rfl⟩ : ∃ j, idx = j + 2 := ⟨idx - 2, by omega⟩
      simp only [List.getD_cons_succ]
      exact oct_ok8 _ (getD_mem_of_lt oct j (by omega) nulChar)
    · rw [if_neg (by rintro ⟨h1, _⟩; exact hlen h1)]
      dsimp only
      apply str_to_i_loop_ok
      intro idx hge hlt
      obtain ⟨j, rfl⟩ : ∃ j, idx = j + 1 := ⟨idx - 1, by omega⟩
      cases j with
      | zero =>
        simp only [List.getD_cons_succ, List.getD_cons_zero]
        exact zero_ok 10 (by omega)
      | succ k =>
        simp only [List.getD_cons_succ]
        exact oct_ok10 _ (getD_mem_of_lt oct k (by simp at hlt; omega) nulChar)

/-- C9 witness: the acceptance statements applied at the decimal literal
`42`, the hexadecimal digits `17`, the octal digits `55`, together with the
two concrete evaluations of the claim. -/
theorem claim_C9_str_to_i_witness :
    (str_to_i ['4', '2'] (['4', '2'] : List Char).length).1 = 1 ∧
    (str_to_i ('-' :: ['4', '2']) ((['4', '2'] : List Char).length + 1)).1 = 1 ∧
    (str_to_i ('0' :: 'x' :: ['1', '7']) ((['1', '7'] : List Char).length + 2)).1 = 1 ∧
    (str_to_i ('-' :: '0' :: 'x' :: ['1', '7']) ((['1', '7'] : List Char).length + 3)).1 = 1 ∧
    (str_to_i ('0' :: ['5', '5']) ((['5', '5'] : List Char).length + 1)).1 = 1 ∧
    (str_to_i ('-' :: '0' :: ['5', '5']) ((['5', '5'] : List Char).length + 2)).1 = 1 ∧
    str_to_i "-0x17".toList 5 = (1, -23) ∧
    str_to_i "-055".toList 4 = (1, -45) :=
  claim_C9_str_to_i ['4', '2'] ['1', '7'] ['5', '5']
    (by decide) (by decide) (by decide) (by decide) (by decide) (by decide) (by decide)

/-- C7 counterexample: with capacity 4, logical length 2, appending 2 bytes,
the whole appended portion fits physically (2 + 2 ≤ 4; copying the fitting
portion would give `['a','b','X','Y']`), yet `append_str_with_len` copies
nothing, because the grown length is not strictly below the capacity —
refuting the claim that the portion of the appended data that still fits
within capacity is physically copied. -/
theorem claim_C7_counterexample :
    (2 : Nat) + 2 ≤ 4 ∧
    writeBytes ['a', 'b', 'c', 'd'] 2 ['X', 'Y'] = ['a', 'b', 'X', 'Y'] ∧
    (append_str_with_len ⟨['a', 'b', 'c', 'd'], 2, 4⟩ ['X', 'Y'] 2).data = ['a', 'b', 'c', 'd'] ∧
    (append_str_with_len ⟨['a', 'b', 'c', 'd'], 2, 4⟩ ['X', 'Y'] 2).length = 4 := by
  refine ⟨by omega, by decide, ?_, ?_⟩
  · rw [append_eq]
    rw [if_neg (by decide)]
  · rw [append_length]
    decide

/-- C7 amended: every `append_str_with_len` call grows the logical length by
exactly the appended length unconditionally, never changes the capacity or
the physical buffer size, never writes at any index at or above the
capacity, and copies the appended bytes all-or-nothing: all of them when
the grown logical length is strictly below the capacity, none otherwise
(rather than the still-fitting portion). -/
theorem claim_C7_append_contract (s : jsmnrpc_string) (src : List Char) (len : Nat)
    (hlen : len ≠ SIZE_MAX) :
    (append_str_with_len s src len).length = s.length + len ∧
    (append_str_with_len s src len).capacity = s.capacity ∧
    (append_str_with_len s src len).data.length = s.data.length ∧
    (∀ i : Nat, s.capacity ≤ i →
      (append_str_with_len s src len).data.getD i ' ' = s.data.getD i ' ') ∧
    (append_str_with_len s src len).data =
      (if s.length + len < s.capacity then writeBytes s.data s.length (src.take len)
       else s.data) := by
  have ha : appendLen src len = len := by
    unfold appendLen
    rw [if_neg hlen]
  refine ⟨?_, append_capacity s src len, append_data_length s src len,
    fun i hi => append_getD_ge s src len i ' ' hi, ?_⟩
  · rw [append_length, ha]
  · rw [append_eq, ha]
    split <;> rfl

/-- C7 witness: the amended contract applied at a concrete state. -/
theorem claim_C7_append_contract_witness :
    (1 : Nat) ≠ SIZE_MAX ∧
    ((append_str_with_len ⟨['a', 'b', 'c'], 0, 3⟩ ['X'] 1).length = 0 + 1 ∧
     (append_str_with_len ⟨['a', 'b', 'c'], 0, 3⟩ ['X'] 1).capacity = 3 ∧
     (append_str_with_len ⟨['a', 'b', 'c'], 0, 3⟩ ['X'] 1).data.length =
       (['a', 'b', 'c'] : List Char).length ∧
     (∀ i : Nat, 3 ≤ i →
       (append_str_with_len ⟨['a', 'b', 'c'], 0, 3⟩ ['X'] 1).data.getD i ' ' =
         (['a', 'b', 'c'] : List Char).getD i ' ') ∧
     (append_str_with_len ⟨['a', 'b', 'c'], 0, 3⟩ ['X'] 1).data =
       (if 0 + 1 < 3 then writeBytes ['a', 'b', 'c'] 0 (['X'].take 1)
        else ['a', 'b', 'c'])) :=
  ⟨by decide, claim_C7_append_contract ⟨['a', 'b', 'c'], 0, 3⟩ ['X'] 1 (by decide)⟩

/-! ### Token navigation (claims C8, C10) -/

theorem get_value_loop_bounds (tokens : jsmnrpc_token_list) (off idx : Int)
    (key : Option (List Char)) (nt : jsmntype) :
    ∀ (fuel : Nat) (i offset : Int),
      jsmnrpc_get_value_loop tokens off idx key nt fuel i offset = -1 ∨
        (i ≤ jsmnrpc_get_value_loop tokens off idx key nt fuel i offset ∧
          jsmnrpc_get_value_loop tokens off idx key nt fuel i offset < tokens.length) := by
  intro fuel
  induction fuel with
  | zero =>
    intro i offset
    left
    rfl
  | succ fuel ih =>
    intro i offset
    simp only [jsmnrpc_get_value_loop]
    split
    · next hi =>
      split
      · split
        · split
          · split
            · left
              rfl
            · next hprot =>
              push_neg at hprot
              right
              exact ⟨by omega, hprot.1⟩
          · rcases ih (i + 1) offset with h | h
            · left
              exact h
            · right
              exact ⟨by omega, h.2⟩
        · split
          · right
            exact ⟨le_refl i, hi⟩
          · rcases ih (i + 1) (offset + 1) with h | h
            · left
              exact h
            · right
              exact ⟨by omega, h.2⟩
      · rcases ih (i + 1) offset with h | h
        · left
          exact h
        · right
          exact ⟨by omega, h.2⟩
    · left
      rfl

theorem get_value_loop_obj_found (tokens : jsmnrpc_token_list) (off idx : Int)
    (key : List Char) :
    ∀ (fuel : Nat) (i offset j : Int),
      i ≤ j → j < tokens.length → j < i + (fuel : Int) →
      (tokData tokens j).parent = off →
      keyMatches tokens j key →
      (∀ j', i ≤ j' → j' < j → (tokData tokens j').parent = off →
        ¬ keyMatches tokens j' key) →
      jsmnrpc_get_value_loop tokens off idx (some key) JSMN_OBJECT fuel i offset =
        (if j + 1 ≥ tokens.length ∨ (tokData tokens (j + 1)).parent ≠ j then -1 else j + 1) := by
  intro fuel
  induction fuel with
  | zero =>
    intro i offset j h1 h2 h3 hp hm hfirst
    omega
  | succ fuel ih =>
    intro i offset j h1 h2 h3 hp hm hfirst
    simp only [keyMatches] at hm hfirst
    simp only [jsmnrpc_get_value_loop]
    rw [if_pos (by omega : i < tokens.length)]
    by_cases hij : i = j
    · subst hij
      rw [if_pos hp]
      simp only [if_true, Option.getD_some]
      rw [if_pos hm]
    · have hlt : i < j := by omega
      by_cases hpi : (tokData tokens i).parent = off
      · rw [if_pos hpi]
        simp only [if_true, Option.getD_some]
        rw [if_neg (hfirst i (le_refl i) hlt hpi)]
        exact ih (i + 1) offset j (by omega) h2 (by push_cast at h3 ⊢; omega) hp hm
          (fun j' ha hb hc => hfirst j' (by omega) hb hc)
      · rw [if_neg hpi]
        exact ih (i + 1) offset j (by omega) h2 (by push_cast at h3 ⊢; omega) hp hm
          (fun j' ha hb hc => hfirst j' (by omega) hb hc)

theorem get_value_loop_obj_none (tokens : jsmnrpc_token_list) (off idx : Int)
    (key : List Char) :
    ∀ (fuel : Nat) (i offset : Int),
      (∀ j, i ≤ j → j < tokens.length → (tokData tokens j).parent = off →
        ¬ keyMatches tokens j key) →
      jsmnrpc_get_value_loop tokens off idx (some key) JSMN_OBJECT fuel i offset = -1 := by
  intro fuel
  induction fuel with
  | zero =>
    intro i offset h
    rfl
  | succ fuel ih =>
    intro i offset h
    simp only [keyMatches] at h
    simp only [jsmnrpc_get_value_loop]
    split
    · next hi =>
      by_cases hpi : (tokData tokens i).parent = off
      · rw [if_pos hpi]
        simp only [if_true, Option.getD_some]
        rw [if_neg (h i (le_refl i) hi hpi)]
        exact ih (i + 1) offset (fun j ha hb hc => h j (by omega) hb hc)
      · rw [if_neg hpi]
        exact ih (i + 1) offset (fun j ha hb hc => h j (by omega) hb hc)
    · rfl

theorem get_value_loop_arr_child (tokens : jsmnrpc_token_list) (off idx : Int)
    (key : Option (List Char)) (nt : jsmntype) (hnt : nt ≠ JSMN_OBJECT) :
    ∀ (fuel : Nat) (i offset : Int),
      0 ≤ jsmnrpc_get_value_loop tokens off idx key nt fuel i offset →
      (tokData tokens (jsmnrpc_get_value_loop tokens off idx key nt fuel i offset)).parent =
        off := by
  intro fuel
  induction fuel with
  | zero =>
    intro i offset h
    exact absurd h (by norm_num [jsmnrpc_get_value_loop])
  | succ fuel ih =>
    intro i offset
    simp only [jsmnrpc_get_value_loop]
    by_cases hi : i < tokens.length
    · rw [if_pos hi]
      by_cases hpi : (tokData tokens i).parent = off
      · rw [if_pos hpi, if_neg hnt]
        by_cases ho : offset = idx
        · rw [if_pos ho]
          intro _
          exact hpi
        · rw [if_neg ho]
          exact ih (i + 1) (offset + 1)
      · rw [if_neg hpi]
        exact ih (i + 1) offset
    · rw [if_neg hi]
      intro h
      exact absurd h (by norm_num)

theorem get_value_object_eq (tokens : jsmnrpc_token_list) (obj idx : Int) (key : List Char)
    (hobj : 0 ≤ obj) (htype : (tokData tokens obj).type = JSMN_OBJECT) :
    jsmnrpc_get_value tokens obj idx (some key) =
      jsmnrpc_get_value_loop tokens obj idx (some key) JSMN_OBJECT tokens.length.toNat
        (obj + 1) 0 := by
  unfold jsmnrpc_get_value
  rw [if_pos hobj]
  dsimp only
  rw [htype]
  rw [if_neg (by rintro ⟨h, _⟩; exact absurd h (by decide))]
  rw [if_neg (by intro h; exact absurd h (by simp))]
  rw [if_neg (by rintro ⟨_, h⟩; exact h rfl)]

theorem get_value_array_eq (tokens : jsmnrpc_token_list) (t idx : Int)
    (key : Option (List Char)) (ht : 0 ≤ t) (htype : (tokData tokens t).type = JSMN_ARRAY)
    (hidx : ¬idx < 0) :
    jsmnrpc_get_value tokens t idx key =
      jsmnrpc_get_value_loop tokens t idx key JSMN_ARRAY tokens.length.toNat (t + 1) 0 := by
  unfold jsmnrpc_get_value
  rw [if_pos ht]
  dsimp only
  rw [htype]
  simp [hidx]

/-- C8: on an Object token, `jsmnrpc_get_value` resolves the *first*
immediate child (in scan order) whose bytes equal the key — so when the
source holds the key more than once the first occurrence wins — answering
with the token following that child when it is the child's value (else -1,
the protecting check); when no *immediate* child matches, the lookup
answers -1 even if deeper descendants carry matching bytes (only immediate
children are examined); and an Array lookup only ever answers an immediate
child of the queried token. -/
theorem claim_C8_object_lookup (tokens : jsmnrpc_token_list) (obj idx : Int) (key : List Char)
    (hobj : 0 ≤ obj) (htype : (tokData tokens obj).type = JSMN_OBJECT) :
    (∀ j : Int, obj < j → j < tokens.length → (tokData tokens j).parent = obj →
      keyMatches tokens j key →
      (∀ j' : Int, obj < j' → j' < j → (tokData tokens j').parent = obj →
        ¬ keyMatches tokens j' key) →
      jsmnrpc_get_value tokens obj idx (some key) =
        (if j + 1 ≥ tokens.length ∨ (tokData tokens (j + 1)).parent ≠ j then -1 else j + 1)) ∧
    ((∀ j : Int, obj < j → j < tokens.length → (tokData tokens j).parent = obj →
        ¬ keyMatches tokens j key) →
      jsmnrpc_get_value tokens obj idx (some key) = -1) ∧
    (∀ (t index2 : Int) (key2 : Option (List Char)), 0 ≤ t →
      (tokData tokens t).type = JSMN_ARRAY →
      0 ≤ jsmnrpc_get_value tokens t index2 key2 →
      (tokData tokens (jsmnrpc_get_value tokens t index2 key2)).parent = t) := by
  refine ⟨?_, ?_, ?_⟩
  · intro j h1 h2 hp hm hfirst
    rw [get_value_object_eq tokens obj idx key hobj htype]
    exact get_value_loop_obj_found tokens obj idx key tokens.length.toNat (obj + 1) 0 j
      (by omega) h2 (by omega) hp hm (fun j' ha hb hc => hfirst j' (by omega) hb hc)
  · intro hnone
    rw [get_value_object_eq tokens obj idx key hobj htype]
    exact get_value_loop_obj_none tokens obj idx key tokens.length.toNat (obj + 1) 0
      (fun j ha hb hc => hnone j (by omega) hb hc)
  · intro t index2 key2 ht htarr hres
    by_cases hidx : index2 < 0
    · exfalso
      have : jsmnrpc_get_value tokens t index2 key2 = -1 := by
        unfold jsmnrpc_get_value
        rw [if_pos ht]
        dsimp only
        rw [htarr]
        rw [if_pos ⟨rfl, hidx⟩]
      omega
    · rw [get_value_array_eq tokens t index2 key2 ht htarr hidx] at hres ⊢
      exact get_value_loop_arr_child tokens t index2 key2 JSMN_ARRAY (by decide)
        tokens.length.toNat (t + 1) 0 hres

/-- C10: over a token list of non-negative length, every in-range call of
`jsmnrpc_get_value` answers -1 or a token index inside `[0,
tokens.length)`; and when an object key matches but no value token follows
it (next index out of range, or the following token not a child of the
matched key), the answer is -1. -/
theorem claim_C10_result_range (tokens : jsmnrpc_token_list) (t idx : Int)
    (key : Option (List Char)) (hlen : 0 ≤ tokens.length) (ht : t < tokens.length) :
    (jsmnrpc_get_value tokens t idx key = -1 ∨
      (0 ≤ jsmnrpc_get_value tokens t idx key ∧
        jsmnrpc_get_value tokens t idx key < tokens.length)) ∧
    (∀ (k : List Char) (j : Int), key = some k →
      (tokData tokens t).type = JSMN_OBJECT →
      t < j → j < tokens.length → (tokData tokens j).parent = t →
      keyMatches tokens j k →
      (∀ j', t < j' → j' < j → (tokData tokens j').parent = t → ¬ keyMatches tokens j' k) →
      (j + 1 ≥ tokens.length ∨ (tokData tokens (j + 1)).parent ≠ j) →
      jsmnrpc_get_value tokens t idx key = -1) := by
  constructor
  · by_cases ht0 : 0 ≤ t
    · unfold jsmnrpc_get_value
      rw [if_pos ht0]
      dsimp only
      split
      · left
        rfl
      · split
        · left
          rfl
        · split
          · split
            · next hch =>
              right
              exact ⟨by omega, hch.1⟩
            · right
              exact ⟨ht0, ht⟩
          · rcases get_value_loop_bounds tokens t idx key (tokData tokens t).type
                tokens.length.toNat (t + 1) 0 with h | h
            · left
              exact h
            · right
              exact ⟨by omega, h.2⟩
    · left
      unfold jsmnrpc_get_value
      rw [if_neg ht0]
  · rintro k j rfl htype h1 h2 hp hm hfirst hprot
    by_cases ht0 : 0 ≤ t
    · rw [get_value_object_eq tokens t idx k ht0 htype]
      rw [get_value_loop_obj_found tokens t idx k tokens.length.toNat (t + 1) 0 j
        (by omega) h2 (by omega) hp hm (fun j' ha hb hc => hfirst j' (by omega) hb hc)]
      rw [if_pos hprot]
    · unfold jsmnrpc_get_value
      rw [if_neg ht0]

/-- C8 witness: looking up `a` in `{"a": 1, "a": 2}` answers token 2 (the
value `1` of the first occurrence), by the first-match clause applied at
the first matching key token 1. -/
theorem claim_C8_object_lookup_witness :
    jsmnrpc_get_value dupKeyTokens 0 (-1) (some ['a']) = 2 := by
  have h := (claim_C8_object_lookup dupKeyTokens 0 (-1) ['a'] (by decide) (by decide)).1 1
    (by decide) (by decide) (by decide) (by decide)
    (fun j' ha hb hc => absurd ha (by omega))
  rw [h]
  decide

/-- C10 witness: the range statement applied to a lookup of an absent key
on the concrete token list. -/
theorem claim_C10_result_range_witness :
    jsmnrpc_get_value dupKeyTokens 0 (-1) (some ['q']) = -1 ∨
      (0 ≤ jsmnrpc_get_value dupKeyTokens 0 (-1) (some ['q']) ∧
        jsmnrpc_get_value dupKeyTokens 0 (-1) (some ['q']) < dupKeyTokens.length) :=
  (claim_C10_result_range dupKeyTokens 0 (-1) (some ['q']) (by decide) (by decide)).1

/-! ### Response composition as chunk concatenation (claims C1, C3, C4, C5)

Each composer function appends a fixed sequence of chunks — a literal with
the `SIZE_MAX` sentinel, a separator with explicit length 2, or a token
view — to the response.  `appendAll` folds `append_str_with_len` over such
a chunk list, and `chunksBytes`/`chunksLen` give the bytes and total length
the sequence contributes. -/

theorem str_len_le (l : List Char) : str_len l ≤ l.length := by
  induction l with
  | nil => simp [str_len]
  | cons c rest ih =>
    unfold str_len
    split <;> simp <;> omega

theorem chunksBytes_nil : chunksBytes [] = [] := rfl

theorem chunksBytes_cons (p : List Char × Nat) (l : List (List Char × Nat)) :
    chunksBytes (p :: l) = chunkBytes p ++ chunksBytes l := by
  simp [chunksBytes]

theorem chunksBytes_append (l1 l2 : List (List Char × Nat)) :
    chunksBytes (l1 ++ l2) = chunksBytes l1 ++ chunksBytes l2 := by
  simp [chunksBytes]

theorem chunksLen_cons (p : List Char × Nat) (l : List (List Char × Nat)) :
    chunksLen (p :: l) = appendLen p.1 p.2 + chunksLen l := by
  simp [chunksLen]

theorem appendAll_append (s : jsmnrpc_string) (l1 l2 : List (List Char × Nat)) :
    appendAll s (l1 ++ l2) = appendAll (appendAll s l1) l2 := by
  induction l1 generalizing s with
  | nil => rfl
  | cons p rest ih => simp [appendAll, ih]

theorem appendAll_length (l : List (List Char × Nat)) (s : jsmnrpc_string) :
    (appendAll s l).length = s.length + chunksLen l := by
  induction l generalizing s with
  | nil => simp [appendAll, chunksLen]
  | cons p rest ih =>
    rw [appendAll, ih, append_length, chunksLen_cons]
    omega

theorem appendAll_capacity (l : List (List Char × Nat)) (s : jsmnrpc_string) :
    (appendAll s l).capacity = s.capacity := by
  induction l generalizing s with
  | nil => rfl
  | cons p rest ih => rw [appendAll, ih, append_capacity]

theorem appendAll_data_length (l : List (List Char × Nat)) (s : jsmnrpc_string) :
    (appendAll s l).data.length = s.data.length := by
  induction l generalizing s with
  | nil => rfl
  | cons p rest ih => rw [appendAll, ih, append_data_length]

theorem contentOf_appendAll (l : List (List Char × Nat)) (s : jsmnrpc_string)
    (hcap : s.capacity ≤ s.data.length)
    (hsrc : ∀ p ∈ l, appendLen p.1 p.2 ≤ p.1.length)
    (hfit : s.length + chunksLen l < s.capacity) :
    contentOf (appendAll s l) = contentOf s ++ chunksBytes l := by
  induction l generalizing s with
  | nil => simp [appendAll, chunksBytes]
  | cons p rest ih =>
    rw [appendAll]
    rw [chunksLen_cons] at hfit
    have hfit1 : s.length + appendLen p.1 p.2 < s.capacity := by omega
    rw [ih (append_str_with_len s p.1 p.2)
      (by rw [append_capacity, append_data_length]; exact hcap)
      (fun q hq => hsrc q (List.mem_cons_of_mem _ hq))
      (by rw [append_length, append_capacity]; omega)]
    rw [contentOf_append s p.1 p.2 hcap (hsrc p (List.mem_cons_self _ _)) hfit1]
    rw [chunksBytes_cons, chunkBytes, List.append_assoc]

theorem view_chunk_facts (tokens : jsmnrpc_token_list) (t : Int) (ht : 0 ≤ t)
    (hs : goodTokenSpan tokens t) :
    appendLen (jsmnrpc_get_string tokens t).data (jsmnrpc_get_string tokens t).length =
      (jsmnrpc_get_string tokens t).length ∧
    (jsmnrpc_get_string tokens t).length ≤ (jsmnrpc_get_string tokens t).data.length := by
  obtain ⟨h1, h2, h3, h4⟩ := hs
  unfold jsmnrpc_get_string
  rw [if_neg (by omega)]
  dsimp only
  constructor
  · unfold appendLen
    rw [if_neg (by omega)]
  · simp only [List.length_drop]
    omega

theorem create_error_eq (err : Int) (err_msg : List Char) (info : jsmnrpc_request_info)
    (data : jsmnrpc_data) :
    jsmnrpc_create_error err err_msg info data =
      { data with
        response := appendAll data.response
          (error_chunks err err_msg info data.request data.tokens
            (data.response.length > 2)) } := by
  unfold jsmnrpc_create_error error_chunks parse_error_flags
  dsimp only
  split_ifs <;> rfl

theorem create_result_prefix_eq (info : jsmnrpc_request_info) (data : jsmnrpc_data) :
    jsmnrpc_create_result_prefix info data =
      (decide (info.info_flags &&& jsmnrpc_request_is_notification = 0),
        { data with
          response := appendAll data.response
            (result_prefix_chunks info data.tokens (data.response.length > 2)) }) := by
  unfold jsmnrpc_create_result_prefix result_prefix_chunks
  dsimp only
  split_ifs <;> (first | rfl | (simp_all; rfl))

theorem create_result_eq (result_str : List Char) (info : jsmnrpc_request_info)
    (data : jsmnrpc_data) :
    jsmnrpc_create_result result_str info data =
      { data with
        response := appendAll data.response
          (result_chunks result_str info data.tokens (data.response.length > 2)) } := by
  unfold jsmnrpc_create_result result_chunks
  rw [create_result_prefix_eq]
  dsimp only
  by_cases hn : info.info_flags &&& jsmnrpc_request_is_notification = 0
  · rw [if_pos hn, if_pos (by simp [hn])]
    rw [appendAll_append]
    rfl
  · rw [if_neg hn, if_neg (by simp [hn])]
    unfold result_prefix_chunks
    rw [if_neg hn]

theorem appendLen_size_max_le (src : List Char) : appendLen src SIZE_MAX ≤ src.length := by
  unfold appendLen
  rw [if_pos rfl]
  exact str_len_le src

theorem view_chunk_le (tokens : jsmnrpc_token_list) (t : Int) (ht : 0 ≤ t)
    (hs : goodTokenSpan tokens t) :
    appendLen (jsmnrpc_get_string tokens t).data (jsmnrpc_get_string tokens t).length ≤
      (jsmnrpc_get_string tokens t).data.length := by
  rw [(view_chunk_facts tokens t ht hs).1]
  exact (view_chunk_facts tokens t ht hs).2

theorem view_chunkBytes (tokens : jsmnrpc_token_list) (t : Int) (ht : 0 ≤ t)
    (hs : goodTokenSpan tokens t) :
    chunkBytes ((jsmnrpc_get_string tokens t).data, (jsmnrpc_get_string tokens t).length) =
      token_bytes tokens t := by
  unfold chunkBytes token_bytes
  rw [(view_chunk_facts tokens t ht hs).1]

theorem append_mid_exists (A S E M ID C : List Char) :
    ∃ p q, A ++ (S ++ (E ++ M ++ ID ++ C)) = p ++ ID ++ q :=
  ⟨A ++ (S ++ (E ++ M)), C, by simp [List.append_assoc]⟩

/-- C1: in every non-notification response composed for an envelope whose
id was resolved to a well-formed token, both `jsmnrpc_create_result` and
`jsmnrpc_create_error` write a `, "id": ` marker followed by the id token's
exact source bytes, unchanged (stated on the physical content under the
assumption that the composed response still fits the buffer). -/
theorem claim_C1_id_echo (info : jsmnrpc_request_info) (data : jsmnrpc_data)
    (result_str err_msg : List Char) (err : Int)
    (hnotif : info.info_flags &&& jsmnrpc_request_is_notification = 0)
    (hid : 0 ≤ info.id_value_token)
    (hspan : goodTokenSpan data.tokens info.id_value_token)
    (hwf : data.response.capacity ≤ data.response.data.length)
    (hfit1 : (jsmnrpc_create_result result_str info data).response.length <
      data.response.capacity)
    (hfit2 : (jsmnrpc_create_error err err_msg info data).response.length <
      data.response.capacity) :
    (∃ p q, contentOf (jsmnrpc_create_result result_str info data).response =
      p ++ (", \"id\": ".toList ++ token_bytes data.tokens info.id_value_token) ++ q) ∧
    (∃ p q, contentOf (jsmnrpc_create_error err err_msg info data).response =
      p ++ (", \"id\": ".toList ++ token_bytes data.tokens info.id_value_token) ++ q) := by
  have hvd := view_chunkBytes data.tokens info.id_value_token hid hspan
  constructor
  · rw [create_result_eq] at hfit1 ⊢
    dsimp only at hfit1 ⊢
    rw [appendAll_length] at hfit1
    have hsrc : ∀ p ∈ result_chunks result_str info data.tokens (data.response.length > 2),
        appendLen p.1 p.2 ≤ p.1.length := by
      intro p hp
      unfold result_chunks result_prefix_chunks at hp
      rw [if_pos hnotif, if_pos hnotif, if_pos hid] at hp
      split_ifs at hp
      all_goals simp only [List.mem_append, List.mem_cons, List.not_mem_nil, or_false] at hp
      all_goals ((repeat' (rcases hp with hp | hp)) <;>
        ((try subst hp) <;>
          (first
            | decide
            | exact appendLen_size_max_le _
            | exact view_chunk_le data.tokens info.id_value_token hid hspan
            | (rw [hp]; exact view_chunk_le data.tokens info.id_value_token hid hspan)
            | (rw [hp]; exact appendLen_size_max_le _)
            | (rw [hp]; decide))))
    rw [contentOf_appendAll _ _ hwf hsrc hfit1]
    unfold result_chunks result_prefix_chunks
    rw [if_pos hnotif, if_pos hnotif, if_pos hid]
    rw [chunksBytes_append, chunksBytes_append, chunksBytes_append]
    rw [show chunksBytes
        [(", \"id\": ".toList, SIZE_MAX),
         ((jsmnrpc_get_string data.tokens info.id_value_token).data,
          (jsmnrpc_get_string data.tokens info.id_value_token).length)] =
        ", \"id\": ".toList ++ token_bytes data.tokens info.id_value_token from by
      rw [chunksBytes_cons, chunksBytes_cons, chunksBytes_nil, hvd]
      rw [show chunkBytes (", \"id\": ".toList, SIZE_MAX) = ", \"id\": ".toList from by decide]
      simp]
    refine ⟨contentOf data.response ++
      (chunksBytes (if data.response.length > 2 then [(", ".toList, 2)] else []) ++
        chunksBytes
          (if info.info_flags &&& jsmnrpc_request_is_rpc_20 ≠ 0 then
            [( response_20_prefix, SIZE_MAX)]
           else [( response_1x_prefix, SIZE_MAX), ("\"error\": null".toList, SIZE_MAX)])),
      chunksBytes [(", \"result\": ".toList, SIZE_MAX), (result_str, SIZE_MAX),
        ("\x7d".toList, SIZE_MAX)], ?_⟩
    simp [List.append_assoc]
  · rw [create_error_eq] at hfit2 ⊢
    dsimp only at hfit2 ⊢
    rw [appendAll_length] at hfit2
    have hsrc : ∀ p ∈ error_chunks err err_msg info data.request data.tokens
        (data.response.length > 2), appendLen p.1 p.2 ≤ p.1.length := by
      intro p hp
      unfold error_chunks at hp
      dsimp only at hp
      rw [if_neg (show ¬(info.info_flags &&& jsmnrpc_request_is_notification ≠ 0) by
        simp [hnotif]), if_pos (Or.inl hid), if_pos hid] at hp
      split_ifs at hp
      all_goals simp only [List.mem_append, List.mem_cons, List.not_mem_nil, or_false] at hp
      all_goals ((repeat' (rcases hp with hp | hp)) <;>
        ((try subst hp) <;>
          (first
            | decide
            | exact appendLen_size_max_le _
            | exact view_chunk_le data.tokens info.id_value_token hid hspan
            | (rw [hp]; exact view_chunk_le data.tokens info.id_value_token hid hspan)
            | (rw [hp]; exact appendLen_size_max_le _)
            | (rw [hp]; decide))))
    rw [contentOf_appendAll _ _ hwf hsrc hfit2]
    unfold error_chunks
    dsimp only
    rw [if_neg (show ¬(info.info_flags &&& jsmnrpc_request_is_notification ≠ 0) by
      simp [hnotif]), if_pos (Or.inl hid), if_pos hid]
    rw [chunksBytes_append, chunksBytes_append, chunksBytes_append, chunksBytes_append]
    rw [show chunksBytes
        ((", \"id\": ".toList, SIZE_MAX) ::
         [((jsmnrpc_get_string data.tokens info.id_value_token).data,
           (jsmnrpc_get_string data.tokens info.id_value_token).length)]) =
        ", \"id\": ".toList ++ token_bytes data.tokens info.id_value_token from by
      rw [chunksBytes_cons, chunksBytes_cons, chunksBytes_nil, hvd]
      rw [show chunkBytes (", \"id\": ".toList, SIZE_MAX) = ", \"id\": ".toList from by decide]
      simp]
    exact append_mid_exists _ _ _ _ _ _

/-- C1 witness: the id-echo statement applied at the concrete envelope. -/
theorem claim_C1_id_echo_witness :
    (∃ p q, contentOf (jsmnrpc_create_result ['7'] c1info c1data).response =
      p ++ (", \"id\": ".toList ++ token_bytes c1data.tokens c1info.id_value_token) ++ q) ∧
    (∃ p q, contentOf (jsmnrpc_create_error 2 [] c1info c1data).response =
      p ++ (", \"id\": ".toList ++ token_bytes c1data.tokens c1info.id_value_token) ++ q) :=
  claim_C1_id_echo c1info c1data ['7'] [] 2 (by decide) (by decide)
    (by unfold goodTokenSpan; decide) (by decide) (by decide) (by decide)

theorem take_set_of_le (l : List Char) (n m : Nat) (a : Char) (h : m ≤ n) :
    (l.set n a).take m = l.take m := by
  apply List.ext_getElem (by simp)
  intro i h1 h2
  simp only [List.length_take, List.length_set] at h1 h2
  simp only [List.getElem_take]
  rw [List.getElem_set_ne (by omega)]

/-- The error chunk list for an `invalid request` with no resolved id, no
flags and no batch separator: the 1.0 envelope around code -32600,
message `Invalid Request` and the defaulted `"id": null`. -/
theorem error_chunks_invalid_request_no_id (info : jsmnrpc_request_info)
    (req : jsmnrpc_string) (toks : jsmnrpc_token_list) (sep : Prop) [Decidable sep]
    (hflags : info.info_flags = 0) (hid : info.id_value_token < 0) (hsep : ¬sep) :
    error_chunks jsmnrpc_err_invalid_request [] info req toks sep =
      [( response_1x_prefix, SIZE_MAX), ("\"error\": \x7b\"code\": ".toList, SIZE_MAX),
       ("-32600".toList, SIZE_MAX), (", \"message\": \"".toList, SIZE_MAX),
       ("Invalid Request".toList, SIZE_MAX), ("\"\x7d".toList, SIZE_MAX),
       (", \"id\": ".toList, SIZE_MAX), ("null".toList, SIZE_MAX),
       ("\x7d".toList, SIZE_MAX)] := by
  unfold error_chunks parse_error_flags
  dsimp only
  rw [hflags]
  rw [if_neg hsep]
  rw [if_neg (show ¬((0:Nat) &&& jsmnrpc_request_is_notification ≠ 0) by decide)]
  rw [if_neg (show jsmnrpc_err_invalid_request ≠ jsmnrpc_err_parse_error by decide)]
  rw [if_neg (show ¬((0:Nat) &&& jsmnrpc_request_is_rpc_20 ≠ 0) by decide)]
  rw [if_pos (Or.inr rfl)]
  rw [if_neg (show ¬(0 ≤ info.id_value_token) by omega)]
  rw [if_pos (show 0 ≤ jsmnrpc_err_invalid_request ∧
    jsmnrpc_err_invalid_request < jsmnrpc_err_count by decide)]
  rfl

/-- The single-request stage on a 1.0 envelope with no id member answers an
`invalid request` error (src/jsmnrpc.c lines 172-176). -/
theorem handle_single_missing_id_10 (self : jsmnrpc_instance) (d : jsmnrpc_data)
    (hid : jsmnrpc_get_value d.tokens 0 (-1) (some jsmnrpc_key_id) < 0)
    (h20 : ¬(jsmnrpc_get_value d.tokens 0 (-1) (some jsmnrpc_key_jsonrpc) > 0 ∧
        str_are_equal
          (jsmnrpc_get_string d.tokens
            (jsmnrpc_get_value d.tokens 0 (-1) (some jsmnrpc_key_jsonrpc))).data
          ((jsmnrpc_get_string d.tokens
            (jsmnrpc_get_value d.tokens 0 (-1) (some jsmnrpc_key_jsonrpc))).length : Int)
          "2.0".toList)) :
    jsmnrpc_handle_request_single self d 0 =
      jsmnrpc_create_error jsmnrpc_err_invalid_request []
        ⟨jsmnrpc_get_value d.tokens 0 (-1) (some jsmnrpc_key_params),
         jsmnrpc_get_value d.tokens 0 (-1) (some jsmnrpc_key_id), 0⟩ d := by
  unfold jsmnrpc_handle_request_single
  dsimp only
  rw [if_neg h20]
  rw [if_pos hid]
  rw [if_pos (show (0:Nat) &&& jsmnrpc_request_is_rpc_20 = 0 by decide)]

/-- C3: a request that tokenizes to an Object root, resolves no `id` member
and is not protocol 2.0 (no `jsonrpc` member equal to `"2.0"`) is answered
by `jsmnrpc_handle_request` with the Invalid-Request error envelope, code
-32600, carrying the defaulted `"id": null` member (whenever the 69-byte
response fits the output buffer). -/
theorem claim_C3_missing_id_error (self : jsmnrpc_instance) (data : jsmnrpc_data)
    (hparse : (jsmnrpc_parse data.tokens data.request).1 = true)
    (hroot : (tokData (jsmnrpc_parse data.tokens data.request).2 0).type = JSMN_OBJECT)
    (hid : jsmnrpc_get_value (jsmnrpc_parse data.tokens data.request).2 0 (-1)
      (some jsmnrpc_key_id) < 0)
    (h20 : ¬(jsmnrpc_get_value (jsmnrpc_parse data.tokens data.request).2 0 (-1)
          (some jsmnrpc_key_jsonrpc) > 0 ∧
        str_are_equal
          (jsmnrpc_get_string (jsmnrpc_parse data.tokens data.request).2
            (jsmnrpc_get_value (jsmnrpc_parse data.tokens data.request).2 0 (-1)
              (some jsmnrpc_key_jsonrpc))).data
          ((jsmnrpc_get_string (jsmnrpc_parse data.tokens data.request).2
            (jsmnrpc_get_value (jsmnrpc_parse data.tokens data.request).2 0 (-1)
              (some jsmnrpc_key_jsonrpc))).length : Int)
          "2.0".toList))
    (hwf : data.response.capacity ≤ data.response.data.length)
    (hcap : 69 < data.response.capacity) :
    contentOf (jsmnrpc_handle_request self data).response =
      "\x7b\"error\": \x7b\"code\": -32600, \"message\": \"Invalid Request\"\x7d, \"id\": null\x7d".toList ∧
    (jsmnrpc_handle_request self data).response.length = 69 := by
  unfold jsmnrpc_handle_request
  dsimp only
  rw [if_neg (show ¬((jsmnrpc_parse data.tokens data.request).1 = false) by
    rw [hparse]; decide)]
  rw [if_neg (show ¬((tokData (jsmnrpc_parse data.tokens data.request).2 0).type ≠ JSMN_ARRAY ∧
      (tokData (jsmnrpc_parse data.tokens data.request).2 0).type ≠ JSMN_OBJECT) from
    fun h => h.2 hroot)]
  rw [if_neg (show ¬((tokData (jsmnrpc_parse data.tokens data.request).2 0).type = JSMN_ARRAY ∧
      (tokData (jsmnrpc_parse data.tokens data.request).2 0).size < 1) from
    fun h => absurd (hroot ▸ h.1) (by decide))]
  rw [if_neg (show ¬((tokData (jsmnrpc_parse data.tokens data.request).2 0).type = JSMN_ARRAY) from
    fun h => absurd (hroot ▸ h) (by decide))]
  rw [handle_single_missing_id_10 self _ hid h20]
  rw [create_error_eq]
  dsimp only
  rw [error_chunks_invalid_request_no_id _ _ _ _ rfl hid (by decide)]
  rw [if_pos (show (appendAll { data.response with length := 0 }
      [( response_1x_prefix, SIZE_MAX), ("\"error\": \x7b\"code\": ".toList, SIZE_MAX),
       ("-32600".toList, SIZE_MAX), (", \"message\": \"".toList, SIZE_MAX),
       ("Invalid Request".toList, SIZE_MAX), ("\"\x7d".toList, SIZE_MAX),
       (", \"id\": ".toList, SIZE_MAX), ("null".toList, SIZE_MAX),
       ("\x7d".toList, SIZE_MAX)]).capacity > 0 by
    rw [appendAll_capacity]; dsimp only; omega)]
  rw [if_pos (show (appendAll { data.response with length := 0 }
      [( response_1x_prefix, SIZE_MAX), ("\"error\": \x7b\"code\": ".toList, SIZE_MAX),
       ("-32600".toList, SIZE_MAX), (", \"message\": \"".toList, SIZE_MAX),
       ("Invalid Request".toList, SIZE_MAX), ("\"\x7d".toList, SIZE_MAX),
       (", \"id\": ".toList, SIZE_MAX), ("null".toList, SIZE_MAX),
       ("\x7d".toList, SIZE_MAX)]).length <
      (appendAll { data.response with length := 0 }
      [( response_1x_prefix, SIZE_MAX), ("\"error\": \x7b\"code\": ".toList, SIZE_MAX),
       ("-32600".toList, SIZE_MAX), (", \"message\": \"".toList, SIZE_MAX),
       ("Invalid Request".toList, SIZE_MAX), ("\"\x7d".toList, SIZE_MAX),
       (", \"id\": ".toList, SIZE_MAX), ("null".toList, SIZE_MAX),
       ("\x7d".toList, SIZE_MAX)]).capacity by
    rw [appendAll_capacity, appendAll_length]
    dsimp only
    have : chunksLen
      [( response_1x_prefix, SIZE_MAX), ("\"error\": \x7b\"code\": ".toList, SIZE_MAX),
       ("-32600".toList, SIZE_MAX), (", \"message\": \"".toList, SIZE_MAX),
       ("Invalid Request".toList, SIZE_MAX), ("\"\x7d".toList, SIZE_MAX),
       (", \"id\": ".toList, SIZE_MAX), ("null".toList, SIZE_MAX),
       ("\x7d".toList, SIZE_MAX)] = 69 := by decide
    omega)]
  dsimp only
  have hlen : (appendAll { data.response with length := 0 }
      [( response_1x_prefix, SIZE_MAX), ("\"error\": \x7b\"code\": ".toList, SIZE_MAX),
       ("-32600".toList, SIZE_MAX), (", \"message\": \"".toList, SIZE_MAX),
       ("Invalid Request".toList, SIZE_MAX), ("\"\x7d".toList, SIZE_MAX),
       (", \"id\": ".toList, SIZE_MAX), ("null".toList, SIZE_MAX),
       ("\x7d".toList, SIZE_MAX)]).length = 69 := by
    rw [appendAll_length]
    have : chunksLen
      [( response_1x_prefix, SIZE_MAX), ("\"error\": \x7b\"code\": ".toList, SIZE_MAX),
       ("-32600".toList, SIZE_MAX), (", \"message\": \"".toList, SIZE_MAX),
       ("Invalid Request".toList, SIZE_MAX), ("\"\x7d".toList, SIZE_MAX),
       (", \"id\": ".toList, SIZE_MAX), ("null".toList, SIZE_MAX),
       ("\x7d".toList, SIZE_MAX)] = 69 := by decide
    dsimp only
    omega
  constructor
  · unfold contentOf
    dsimp only
    rw [hlen]
    rw [take_set_of_le _ _ _ _ (le_refl 69)]
    have hcontent := contentOf_appendAll
      [( response_1x_prefix, SIZE_MAX), ("\"error\": \x7b\"code\": ".toList, SIZE_MAX),
       ("-32600".toList, SIZE_MAX), (", \"message\": \"".toList, SIZE_MAX),
       ("Invalid Request".toList, SIZE_MAX), ("\"\x7d".toList, SIZE_MAX),
       (", \"id\": ".toList, SIZE_MAX), ("null".toList, SIZE_MAX),
       ("\x7d".toList, SIZE_MAX)]
      { data.response with length := 0 }
      (by dsimp only; exact hwf)
      (by intro p hp
          simp only [List.mem_cons, List.not_mem_nil, or_false] at hp
          rcases hp with rfl | rfl | rfl | rfl | rfl | rfl | rfl | rfl | rfl <;>
            exact appendLen_size_max_le _)
      (by dsimp only
          have : chunksLen
            [( response_1x_prefix, SIZE_MAX), ("\"error\": \x7b\"code\": ".toList, SIZE_MAX),
             ("-32600".toList, SIZE_MAX), (", \"message\": \"".toList, SIZE_MAX),
             ("Invalid Request".toList, SIZE_MAX), ("\"\x7d".toList, SIZE_MAX),
             (", \"id\": ".toList, SIZE_MAX), ("null".toList, SIZE_MAX),
             ("\x7d".toList, SIZE_MAX)] = 69 := by decide
          omega)
    unfold contentOf at hcontent
    rw [hlen] at hcontent
    rw [hcontent]
    have : ({ data.response with length := 0 } : jsmnrpc_string).data.take
        ({ data.response with length := 0 } : jsmnrpc_string).length = [] := by
      dsimp only
      exact List.take_zero _
    rw [this]
    decide
  · exact hlen

/-- C3 witness: the missing-id statement applied at the concrete request
with an empty handler table. -/
theorem claim_C3_missing_id_error_witness :
    contentOf (jsmnrpc_handle_request ⟨[]⟩ c3data).response =
      "\x7b\"error\": \x7b\"code\": -32600, \"message\": \"Invalid Request\"\x7d, \"id\": null\x7d".toList ∧
    (jsmnrpc_handle_request ⟨[]⟩ c3data).response.length = 69 :=
  claim_C3_missing_id_error ⟨[]⟩ c3data (by decide) (by decide) (by decide) (by decide)
    (by decide) (by decide)

/-- The 17-byte probe comparison of src/jsmnrpc.c line 342, restated as a
plain prefix condition: the whitespace-stripped request begins with
`\x7b"jsonrpc":"2.0",`. -/
theorem parse_probe_cond_iff (req : jsmnrpc_string) :
    (str_are_equal (((contentOf req).filter
        (fun ch => ch ≠ '\t' ∧ ch ≠ '\n' ∧ ch ≠ '\r' ∧ ch ≠ ' ')).take 20)
      ((str_len jsonrpc20_probe : Nat) : Int) jsonrpc20_probe = true) ↔
    ((contentOf req).filter
        (fun ch => ch ≠ '\t' ∧ ch ≠ '\n' ∧ ch ≠ '\r' ∧ ch ≠ ' ')).take 17 =
      jsonrpc20_probe := by
  rw [ str_are_equal_iff_prefix jsonrpc20_probe (by decide)]
  rw [List.take_take]
  constructor
  · rintro ⟨-, h⟩
    rw [show min jsonrpc20_probe.length 20 = 17 from by decide] at h
    exact h
  · intro h
    refine ⟨by decide, ?_⟩
    rw [show min jsonrpc20_probe.length 20 = 17 from by decide]
    exact h

/-- The error chunk list for a parse error on a fresh envelope: the
heuristic probe picks the 2.0 or the 1.0 envelope shape around code -32700
and message `Parse error`, with no id member. -/
theorem error_chunks_parse_error_eq (info : jsmnrpc_request_info)
    (req : jsmnrpc_string) (toks : jsmnrpc_token_list) (sep : Prop) [Decidable sep]
    (hflags : info.info_flags = 0) (hid : info.id_value_token < 0) (hsep : ¬sep) :
    error_chunks jsmnrpc_err_parse_error [] info req toks sep =
      (if str_are_equal (((contentOf req).filter
            (fun ch => ch ≠ '\t' ∧ ch ≠ '\n' ∧ ch ≠ '\r' ∧ ch ≠ ' ')).take 20)
          ((str_len jsonrpc20_probe : Nat) : Int) jsonrpc20_probe
       then [( response_20_prefix, SIZE_MAX), (", ".toList, SIZE_MAX)]
       else [( response_1x_prefix, SIZE_MAX)]) ++
      [("\"error\": \x7b\"code\": ".toList, SIZE_MAX), ("-32700".toList, SIZE_MAX),
       (", \"message\": \"".toList, SIZE_MAX), ("Parse error".toList, SIZE_MAX),
       ("\"\x7d".toList, SIZE_MAX), ("\x7d".toList, SIZE_MAX)] := by
  unfold error_chunks parse_error_flags
  dsimp only
  rw [hflags, if_neg hsep]
  rw [if_neg (show ¬((0:Nat) &&& jsmnrpc_request_is_notification ≠ 0) by decide)]
  rw [if_pos (rfl : jsmnrpc_err_parse_error = jsmnrpc_err_parse_error)]
  rw [if_neg (show ¬(0 ≤ info.id_value_token ∨
    jsmnrpc_err_parse_error = jsmnrpc_err_invalid_request) by
      rintro (h | h)
      · omega
      · exact absurd h (by decide))]
  rw [if_pos (show 0 ≤ jsmnrpc_err_parse_error ∧
    jsmnrpc_err_parse_error < jsmnrpc_err_count by decide)]
  by_cases hc : str_are_equal (((contentOf req).filter
      (fun ch => ch ≠ '\t' ∧ ch ≠ '\n' ∧ ch ≠ '\r' ∧ ch ≠ ' ')).take 20)
    ((str_len jsonrpc20_probe : Nat) : Int) jsonrpc20_probe = true
  · rw [if_pos hc, if_pos hc]
    rw [if_pos (show ((0:Nat) ||| jsmnrpc_request_is_rpc_20) &&& jsmnrpc_request_is_rpc_20 ≠ 0
      by decide)]
    rfl
  · rw [if_neg hc, if_neg hc]
    rw [if_neg (show ¬((0:Nat) &&& jsmnrpc_request_is_rpc_20 ≠ 0) by decide)]
    rfl

/-- C5: when tokenization fails, `jsmnrpc_handle_request` answers exactly
one Parse-error response, code -32700, with no batch wrapping; the envelope
is 2.0-shaped exactly when the whitespace-stripped request begins with
`\x7b"jsonrpc":"2.0",`, and 1.0-shaped otherwise (whenever the at most
71-byte response fits the output buffer). -/
theorem claim_C5_parse_error (self : jsmnrpc_instance) (data : jsmnrpc_data)
    (hparse : (jsmnrpc_parse data.tokens data.request).1 = false)
    (hwf : data.response.capacity ≤ data.response.data.length)
    (hcap : 71 < data.response.capacity) :
    contentOf (jsmnrpc_handle_request self data).response =
      (if ((contentOf data.request).filter
          (fun ch => ch ≠ '\t' ∧ ch ≠ '\n' ∧ ch ≠ '\r' ∧ ch ≠ ' ')).take 17 =
            jsonrpc20_probe
       then "\x7b\"jsonrpc\": \"2.0\", \"error\": \x7b\"code\": -32700, \"message\": \"Parse error\"\x7d\x7d".toList
       else "\x7b\"error\": \x7b\"code\": -32700, \"message\": \"Parse error\"\x7d\x7d".toList) ∧
    (jsmnrpc_handle_request self data).response.length =
      (if ((contentOf data.request).filter
          (fun ch => ch ≠ '\t' ∧ ch ≠ '\n' ∧ ch ≠ '\r' ∧ ch ≠ ' ')).take 17 =
            jsonrpc20_probe
       then 71 else 53) := by
  unfold jsmnrpc_handle_request
  dsimp only
  rw [if_pos hparse]
  rw [create_error_eq]
  dsimp only
  rw [error_chunks_parse_error_eq _ _ _ _ rfl (by decide) (by decide)]
  by_cases hc : str_are_equal (((contentOf data.request).filter
      (fun ch => ch ≠ '\t' ∧ ch ≠ '\n' ∧ ch ≠ '\r' ∧ ch ≠ ' ')).take 20)
    ((str_len jsonrpc20_probe : Nat) : Int) jsonrpc20_probe = true
  · rw [if_pos hc]
    rw [if_pos ((parse_probe_cond_iff data.request).mp hc)]
    rw [if_pos ((parse_probe_cond_iff data.request).mp hc)]
    simp only [List.cons_append, List.nil_append]
    have hlen : chunksLen
        [( response_20_prefix, SIZE_MAX), (", ".toList, SIZE_MAX),
         ("\"error\": \x7b\"code\": ".toList, SIZE_MAX), ("-32700".toList, SIZE_MAX),
         (", \"message\": \"".toList, SIZE_MAX), ("Parse error".toList, SIZE_MAX),
         ("\"\x7d".toList, SIZE_MAX), ("\x7d".toList, SIZE_MAX)] = 71 := by decide
    constructor
    · rw [contentOf_appendAll
        [( response_20_prefix, SIZE_MAX), (", ".toList, SIZE_MAX),
         ("\"error\": \x7b\"code\": ".toList, SIZE_MAX), ("-32700".toList, SIZE_MAX),
         (", \"message\": \"".toList, SIZE_MAX), ("Parse error".toList, SIZE_MAX),
         ("\"\x7d".toList, SIZE_MAX), ("\x7d".toList, SIZE_MAX)]
        { data.response with length := 0 }
        (by dsimp only; exact hwf)
        (by intro p hp
            simp only [List.mem_cons, List.not_mem_nil, or_false] at hp
            rcases hp with rfl | rfl | rfl | rfl | rfl | rfl | rfl | rfl <;>
              exact appendLen_size_max_le _)
        (by dsimp only; omega)]
      have : ({ data.response with length := 0 } : jsmnrpc_string).data.take
          ({ data.response with length := 0 } : jsmnrpc_string).length = [] := by
        dsimp only
        exact List.take_zero _
      unfold contentOf
      rw [this]
      decide
    · rw [appendAll_length]
      dsimp only
      omega
  · rw [if_neg hc]
    rw [if_neg (fun hs => hc ((parse_probe_cond_iff data.request).mpr hs))]
    rw [if_neg (fun hs => hc ((parse_probe_cond_iff data.request).mpr hs))]
    simp only [List.cons_append, List.nil_append]
    have hlen : chunksLen
        [( response_1x_prefix, SIZE_MAX),
         ("\"error\": \x7b\"code\": ".toList, SIZE_MAX), ("-32700".toList, SIZE_MAX),
         (", \"message\": \"".toList, SIZE_MAX), ("Parse error".toList, SIZE_MAX),
         ("\"\x7d".toList, SIZE_MAX), ("\x7d".toList, SIZE_MAX)] = 53 := by decide
    constructor
    · rw [contentOf_appendAll
        [( response_1x_prefix, SIZE_MAX),
         ("\"error\": \x7b\"code\": ".toList, SIZE_MAX), ("-32700".toList, SIZE_MAX),
         (", \"message\": \"".toList, SIZE_MAX), ("Parse error".toList, SIZE_MAX),
         ("\"\x7d".toList, SIZE_MAX), ("\x7d".toList, SIZE_MAX)]
        { data.response with length := 0 }
        (by dsimp only; exact hwf)
        (by intro p hp
            simp only [List.mem_cons, List.not_mem_nil, or_false] at hp
            rcases hp with rfl | rfl | rfl | rfl | rfl | rfl | rfl <;>
              exact appendLen_size_max_le _)
        (by dsimp only; omega)]
      have : ({ data.response with length := 0 } : jsmnrpc_string).data.take
          ({ data.response with length := 0 } : jsmnrpc_string).length = [] := by
        dsimp only
        exact List.take_zero _
      unfold contentOf
      rw [this]
      decide
    · rw [appendAll_length]
      dsimp only
      omega

/-- C5 witness: the parse-error statement applied at the truncated request,
whose stripped prefix is not the 2.0 probe, so the 1.0 envelope results. -/
theorem claim_C5_parse_error_witness :
    contentOf (jsmnrpc_handle_request ⟨[]⟩ c5data).response =
      "\x7b\"error\": \x7b\"code\": -32700, \"message\": \"Parse error\"\x7d\x7d".toList ∧
    (jsmnrpc_handle_request ⟨[]⟩ c5data).response.length = 53 := by
  have h := claim_C5_parse_error ⟨[]⟩ c5data (by decide) (by decide) (by decide)
  rw [if_neg (by decide), if_neg (by decide)] at h
  exact h

theorem getD_mem_or {α : Type} (l : List α) (n : Nat) (d : α) :
    l.getD n d ∈ l ∨ l.getD n d = d := by
  by_cases h : n < l.length
  · left
    rw [List.getD_eq_getElem?_getD, List.getElem?_eq_getElem h]
    exact List.getElem_mem h
  · right
    rw [List.getD_eq_getElem?_getD, List.getElem?_eq_none (by omega)]
    rfl

/-- For a notification, `jsmnrpc_create_error` leaves the rpc data
untouched (src/jsmnrpc.c lines 327-329), provided no batch separator fires. -/
theorem create_error_notification_noop (e : Int) (m : List Char)
    (info : jsmnrpc_request_info) (d : jsmnrpc_data)
    (hnotif : info.info_flags &&& jsmnrpc_request_is_notification ≠ 0)
    (hlen : ¬(d.response.length > 2)) :
    jsmnrpc_create_error e m info d = d := by
  unfold jsmnrpc_create_error
  dsimp only
  rw [if_neg hlen, if_pos hnotif]

/-- For a notification, `jsmnrpc_create_result` leaves the rpc data
untouched (src/jsmnrpc.c lines 273-276). -/
theorem create_result_notification_noop (r : List Char)
    (info : jsmnrpc_request_info) (d : jsmnrpc_data)
    (hnotif : info.info_flags &&& jsmnrpc_request_is_notification ≠ 0) :
    jsmnrpc_create_result r info d = d := by
  unfold jsmnrpc_create_result
  rw [create_result_prefix_eq]
  dsimp only
  rw [show decide (info.info_flags &&& jsmnrpc_request_is_notification = 0) = false from
    by simpa using hnotif]
  simp only [Bool.false_eq_true, if_false]
  unfold result_prefix_chunks
  rw [if_neg (show ¬(info.info_flags &&& jsmnrpc_request_is_notification = 0) from hnotif)]
  rfl

/-- For a notification envelope, the whole method stage is a no-op as long
as every registered handler composes its response through
`jsmnrpc_create_result`: the composers skip notifications, and so do both
error paths. -/
theorem method_stage_notification_noop (self : jsmnrpc_instance)
    (info : jsmnrpc_request_info) (d : jsmnrpc_data) (mt : Int)
    (hnotif : info.info_flags &&& jsmnrpc_request_is_notification ≠ 0)
    (hlen : ¬(d.response.length > 2))
    (hhandlers : ∀ h ∈ self.handlers,
      ∃ f : jsmnrpc_request_info → jsmnrpc_data → List Char,
        h.handler = fun i dd => jsmnrpc_create_result (f i dd) i dd) :
    jsmnrpc_method_stage self info d mt = d := by
  unfold jsmnrpc_method_stage
  by_cases h1 : 0 ≤ mt ∧ (tokData d.tokens mt).type = JSMN_STRING
  · rw [if_pos h1]
    dsimp only
    by_cases h2 : 0 ≤ jsmnrpc_get_handler_id self (jsmnrpc_get_string d.tokens mt)
    · rw [if_pos h2]
      rcases getD_mem_or self.handlers
          (jsmnrpc_get_handler_id self (jsmnrpc_get_string d.tokens mt)).toNat
          emptyHandler with hm | he
      · obtain ⟨f, hf⟩ := hhandlers _ hm
        rw [hf]
        exact create_result_notification_noop _ _ _ hnotif
      · rw [he]
        rfl
    · rw [if_neg h2]
      exact create_error_notification_noop _ _ _ _ hnotif hlen
  · rw [if_neg h1]
    exact create_error_notification_noop _ _ _ _ hnotif hlen

/-- A 2.0 envelope lacking `id` makes `jsmnrpc_handle_request_single` a
complete no-op (the notification flag suppresses every composer). -/
theorem handle_single_notification_20 (self : jsmnrpc_instance) (d : jsmnrpc_data)
    (hid : jsmnrpc_get_value d.tokens 0 (-1) (some jsmnrpc_key_id) < 0)
    (h20 : jsmnrpc_get_value d.tokens 0 (-1) (some jsmnrpc_key_jsonrpc) > 0 ∧
        str_are_equal
          (jsmnrpc_get_string d.tokens
            (jsmnrpc_get_value d.tokens 0 (-1) (some jsmnrpc_key_jsonrpc))).data
          ((jsmnrpc_get_string d.tokens
            (jsmnrpc_get_value d.tokens 0 (-1) (some jsmnrpc_key_jsonrpc))).length : Int)
          "2.0".toList)
    (hlen : ¬(d.response.length > 2))
    (hhandlers : ∀ h ∈ self.handlers,
      ∃ f : jsmnrpc_request_info → jsmnrpc_data → List Char,
        h.handler = fun i dd => jsmnrpc_create_result (f i dd) i dd) :
    jsmnrpc_handle_request_single self d 0 = d := by
  unfold jsmnrpc_handle_request_single
  dsimp only
  rw [if_pos h20]
  rw [if_pos hid]
  rw [if_neg (show ¬(jsmnrpc_request_is_rpc_20 &&& jsmnrpc_request_is_rpc_20 = 0) by decide)]
  refine method_stage_notification_noop self _ d _ ?_ hlen hhandlers
  show (jsmnrpc_request_is_rpc_20 ||| jsmnrpc_request_is_notification) &&&
    jsmnrpc_request_is_notification ≠ 0
  decide

/-- C2: a request tokenizing to an Object root under protocol 2.0 (a
`jsonrpc` member equal to `"2.0"`) with no `id` member is a notification:
`jsmnrpc_handle_request` writes no response content — the logical length
stays 0 and, the capacity being positive, the buffer holds the empty
null-terminated string (every registered handler composing its response
through `jsmnrpc_create_result`). -/
theorem claim_C2_notification_empty (self : jsmnrpc_instance) (data : jsmnrpc_data)
    (hparse : (jsmnrpc_parse data.tokens data.request).1 = true)
    (hroot : (tokData (jsmnrpc_parse data.tokens data.request).2 0).type = JSMN_OBJECT)
    (hid : jsmnrpc_get_value (jsmnrpc_parse data.tokens data.request).2 0 (-1)
      (some jsmnrpc_key_id) < 0)
    (h20 : jsmnrpc_get_value (jsmnrpc_parse data.tokens data.request).2 0 (-1)
        (some jsmnrpc_key_jsonrpc) > 0 ∧
      str_are_equal
        (jsmnrpc_get_string (jsmnrpc_parse data.tokens data.request).2
          (jsmnrpc_get_value (jsmnrpc_parse data.tokens data.request).2 0 (-1)
            (some jsmnrpc_key_jsonrpc))).data
        ((jsmnrpc_get_string (jsmnrpc_parse data.tokens data.request).2
          (jsmnrpc_get_value (jsmnrpc_parse data.tokens data.request).2 0 (-1)
            (some jsmnrpc_key_jsonrpc))).length : Int)
        "2.0".toList)
    (hhandlers : ∀ h ∈ self.handlers,
      ∃ f : jsmnrpc_request_info → jsmnrpc_data → List Char,
        h.handler = fun i dd => jsmnrpc_create_result (f i dd) i dd)
    (hwf : data.response.capacity ≤ data.response.data.length)
    (hcap : 0 < data.response.capacity) :
    (jsmnrpc_handle_request self data).response.length = 0 ∧
    ∃ rest, (jsmnrpc_handle_request self data).response.data = nulChar :: rest := by
  unfold jsmnrpc_handle_request
  dsimp only
  rw [if_neg (show ¬((jsmnrpc_parse data.tokens data.request).1 = false) by
    rw [hparse]; decide)]
  rw [if_neg (show ¬((tokData (jsmnrpc_parse data.tokens data.request).2 0).type ≠ JSMN_ARRAY ∧
      (tokData (jsmnrpc_parse data.tokens data.request).2 0).type ≠ JSMN_OBJECT) from
    fun h => h.2 hroot)]
  rw [if_neg (show ¬((tokData (jsmnrpc_parse data.tokens data.request).2 0).type = JSMN_ARRAY ∧
      (tokData (jsmnrpc_parse data.tokens data.request).2 0).size < 1) from
    fun h => absurd (hroot ▸ h.1) (by decide))]
  rw [if_neg (show ¬((tokData (jsmnrpc_parse data.tokens data.request).2 0).type = JSMN_ARRAY) from
    fun h => absurd (hroot ▸ h) (by decide))]
  rw [handle_single_notification_20 self _ hid h20 (show ¬((0:Nat) > 2) by decide) hhandlers]
  rw [if_pos (show ({ data.response with length := 0 } : jsmnrpc_string).capacity > 0 from hcap)]
  rw [if_pos (show ({ data.response with length := 0 } : jsmnrpc_string).length <
    ({ data.response with length := 0 } : jsmnrpc_string).capacity from hcap)]
  dsimp only
  refine ⟨rfl, ?_⟩
  cases hdata : data.response.data with
  | nil =>
    exfalso
    rw [hdata] at hwf
    simp at hwf
    omega
  | cons c cs =>
    exact ⟨cs, rfl⟩

/-- C2 witness: the notification statement applied at the concrete 2.0
request with an empty handler table. -/
theorem claim_C2_notification_empty_witness :
    (jsmnrpc_handle_request ⟨[]⟩ c2data).response.length = 0 ∧
    ∃ rest, (jsmnrpc_handle_request ⟨[]⟩ c2data).response.data = nulChar :: rest :=
  claim_C2_notification_empty ⟨[]⟩ c2data (by decide) (by decide) (by decide)
    (by decide) (by intro h hm; exact absurd hm (List.not_mem_nil h)) (by decide) (by decide)

theorem getD_set_self (l : List Char) (n : Nat) (a d : Char) (h : n < l.length) :
    (l.set n a).getD n d = a := by
  rw [List.getD_eq_getElem?_getD, List.getElem?_set_self]
  · rfl
  · exact h

/-- C6 counterexample, two independent failures of the claim.  (1) On the
empty request the parse-error path returns early, so the byte at index
`min(logical_length, capacity-1) = 53` of the 100-byte buffer is never
null-terminated — it still holds the sentinel `'@'` after the call.
(2) Under truncation the buffer content is not the byte-prefix of the full
response: with capacity 10, the same request that produces the 69-byte
Invalid-Request response (see `c3data`, capacity 100) leaves logical
length 69 and a terminator at `min(69, 9) = 9`, but the 9 bytes before it
are `\x7b@@@@@@@@` — `append_str_with_len` dropped every chunk that no
longer fit in full — and differ from the first 9 bytes of the full
response. -/
theorem claim_C6_counterexample :
    ((jsmnrpc_handle_request ⟨[]⟩ c6data).response.length = 53 ∧
     (jsmnrpc_handle_request ⟨[]⟩ c6data).response.capacity = 100 ∧
     (jsmnrpc_handle_request ⟨[]⟩ c6data).response.data.getD (min 53 (100 - 1)) '@' ≠
       nulChar) ∧
    ((jsmnrpc_handle_request ⟨[]⟩ c6bdata).response.length = 69 ∧
     (jsmnrpc_handle_request ⟨[]⟩ c6bdata).response.capacity = 10 ∧
     (jsmnrpc_handle_request ⟨[]⟩ c6bdata).response.data.getD (min 69 (10 - 1)) '@' =
       nulChar ∧
     (jsmnrpc_handle_request ⟨[]⟩ c6bdata).response.data.take 9 ≠
       (contentOf (jsmnrpc_handle_request ⟨[]⟩ c3data).response).take 9) := by
  decide

theorem create_error_response_inv (e : Int) (m : List Char)
    (info : jsmnrpc_request_info) (d : jsmnrpc_data) :
    (jsmnrpc_create_error e m info d).response.capacity = d.response.capacity ∧
    (jsmnrpc_create_error e m info d).response.data.length = d.response.data.length := by
  rw [create_error_eq]
  exact ⟨appendAll_capacity _ _, appendAll_data_length _ _⟩

theorem create_result_response_inv (r : List Char)
    (info : jsmnrpc_request_info) (d : jsmnrpc_data) :
    (jsmnrpc_create_result r info d).response.capacity = d.response.capacity ∧
    (jsmnrpc_create_result r info d).response.data.length = d.response.data.length := by
  rw [create_result_eq]
  exact ⟨appendAll_capacity _ _, appendAll_data_length _ _⟩

/-- With composer-shaped handlers, the method stage never changes the
response buffer's capacity or physical size. -/
theorem method_stage_response_inv (self : jsmnrpc_instance)
    (info : jsmnrpc_request_info) (d : jsmnrpc_data) (mt : Int)
    (hhandlers : ∀ h ∈ self.handlers,
      ∃ f : jsmnrpc_request_info → jsmnrpc_data → List Char,
        h.handler = fun i dd => jsmnrpc_create_result (f i dd) i dd) :
    (jsmnrpc_method_stage self info d mt).response.capacity = d.response.capacity ∧
    (jsmnrpc_method_stage self info d mt).response.data.length = d.response.data.length := by
  unfold jsmnrpc_method_stage
  dsimp only
  split_ifs
  · rcases getD_mem_or self.handlers
        (jsmnrpc_get_handler_id self (jsmnrpc_get_string d.tokens mt)).toNat
        emptyHandler with hm | he
    · obtain ⟨f, hf⟩ := hhandlers _ hm
      rw [hf]
      exact create_result_response_inv _ _ _
    · rw [he]
      exact ⟨rfl, rfl⟩
  · exact create_error_response_inv _ _ _ _
  · exact create_error_response_inv _ _ _ _

/-- With composer-shaped handlers, handling one request never changes the
response buffer's capacity or physical size. -/
theorem handle_single_response_inv (self : jsmnrpc_instance) (d : jsmnrpc_data) (t : Int)
    (hhandlers : ∀ h ∈ self.handlers,
      ∃ f : jsmnrpc_request_info → jsmnrpc_data → List Char,
        h.handler = fun i dd => jsmnrpc_create_result (f i dd) i dd) :
    (jsmnrpc_handle_request_single self d t).response.capacity = d.response.capacity ∧
    (jsmnrpc_handle_request_single self d t).response.data.length = d.response.data.length := by
  unfold jsmnrpc_handle_request_single
  dsimp only
  split_ifs
  all_goals first
    | exact create_error_response_inv _ _ _ _
    | exact method_stage_response_inv self _ d _ hhandlers

/-- With composer-shaped handlers, the batch loop never changes the
response buffer's capacity or physical size. -/
theorem array_loop_response_inv (self : jsmnrpc_instance) (len0 : Int)
    (hhandlers : ∀ h ∈ self.handlers,
      ∃ f : jsmnrpc_request_info → jsmnrpc_data → List Char,
        h.handler = fun i dd => jsmnrpc_create_result (f i dd) i dd) :
    ∀ (fuel : Nat) (d : jsmnrpc_data) (i : Int),
      (jsmnrpc_handle_request_array_loop self len0 fuel d i).response.capacity =
        d.response.capacity ∧
      (jsmnrpc_handle_request_array_loop self len0 fuel d i).response.data.length =
        d.response.data.length := by
  intro fuel
  induction fuel with
  | zero =>
    intro d i
    exact ⟨rfl, rfl⟩
  | succ fuel ih =>
    intro d i
    unfold jsmnrpc_handle_request_array_loop
    by_cases hi : i < len0
    · rw [if_pos hi]
      dsimp only
      by_cases hpar : (tokData d.tokens i).parent = 0
      · rw [if_pos hpar]
        obtain ⟨h1, h2⟩ := handle_single_response_inv self d i hhandlers
        obtain ⟨h3, h4⟩ := ih (jsmnrpc_handle_request_single self d i) (i + 1)
        exact ⟨h3.trans h1, h4.trans h2⟩
      · rw [if_neg hpar]
        exact ih d (i + 1)
    · rw [if_neg hi]
      exact ⟨rfl, rfl⟩

/-- C6 (amended): whenever `jsmnrpc_handle_request` reaches its
finalization step — the request tokenized and the root is an Object or a
non-empty Array, so no early error return is taken — the response buffer
is null-terminated at index `min(logical_length, capacity-1)`
(composer-shaped handlers, positive capacity, physical buffer at least
`capacity` bytes). -/
theorem claim_C6_truncation_terminator (self : jsmnrpc_instance) (data : jsmnrpc_data)
    (hparse : (jsmnrpc_parse data.tokens data.request).1 = true)
    (hroot : (tokData (jsmnrpc_parse data.tokens data.request).2 0).type = JSMN_OBJECT ∨
      ((tokData (jsmnrpc_parse data.tokens data.request).2 0).type = JSMN_ARRAY ∧
        ¬((tokData (jsmnrpc_parse data.tokens data.request).2 0).size < 1)))
    (hhandlers : ∀ h ∈ self.handlers,
      ∃ f : jsmnrpc_request_info → jsmnrpc_data → List Char,
        h.handler = fun i dd => jsmnrpc_create_result (f i dd) i dd)
    (hwf : data.response.capacity ≤ data.response.data.length)
    (hcap : 0 < data.response.capacity) :
    (jsmnrpc_handle_request self data).response.data.getD
      (min (jsmnrpc_handle_request self data).response.length
        ((jsmnrpc_handle_request self data).response.capacity - 1)) 'x' = nulChar := by
  rcases hroot with hroot | ⟨hA, hS⟩
  · unfold jsmnrpc_handle_request
    dsimp only
    rw [if_neg (show ¬((jsmnrpc_parse data.tokens data.request).1 = false) by
      rw [hparse]; decide)]
    rw [if_neg (show ¬((tokData (jsmnrpc_parse data.tokens data.request).2 0).type ≠ JSMN_ARRAY ∧
        (tokData (jsmnrpc_parse data.tokens data.request).2 0).type ≠ JSMN_OBJECT) from
      fun h => h.2 hroot)]
    rw [if_neg (show ¬((tokData (jsmnrpc_parse data.tokens data.request).2 0).type = JSMN_ARRAY ∧
        (tokData (jsmnrpc_parse data.tokens data.request).2 0).size < 1) from
      fun h => absurd (hroot ▸ h.1) (by decide))]
    rw [if_neg (show ¬((tokData (jsmnrpc_parse data.tokens data.request).2 0).type = JSMN_ARRAY) from
      fun h => absurd (hroot ▸ h) (by decide))]
    obtain ⟨hc, hd⟩ := handle_single_response_inv self
      ⟨data.request, ⟨data.response.data, 0, data.response.capacity⟩,
        (jsmnrpc_parse data.tokens data.request).2⟩ 0 hhandlers
    dsimp only at hc hd
    generalize hg : jsmnrpc_handle_request_single self
      ⟨data.request, ⟨data.response.data, 0, data.response.capacity⟩,
        (jsmnrpc_parse data.tokens data.request).2⟩ 0 = D at hc hd ⊢
    rw [if_pos (show D.response.capacity > 0 from by omega)]
    by_cases hl : D.response.length < D.response.capacity
    · rw [if_pos hl]
      dsimp only
      rw [Nat.min_eq_left (by omega)]
      exact getD_set_self _ _ _ _ (by omega)
    · rw [if_neg hl]
      dsimp only
      rw [Nat.min_eq_right (by omega)]
      exact getD_set_self _ _ _ _ (by omega)
  · unfold jsmnrpc_handle_request
    dsimp only
    rw [if_neg (show ¬((jsmnrpc_parse data.tokens data.request).1 = false) by
      rw [hparse]; decide)]
    rw [if_neg (show ¬((tokData (jsmnrpc_parse data.tokens data.request).2 0).type ≠ JSMN_ARRAY ∧
        (tokData (jsmnrpc_parse data.tokens data.request).2 0).type ≠ JSMN_OBJECT) from
      fun h => h.1 hA)]
    rw [if_neg (show ¬((tokData (jsmnrpc_parse data.tokens data.request).2 0).type = JSMN_ARRAY ∧
        (tokData (jsmnrpc_parse data.tokens data.request).2 0).size < 1) from
      fun h => hS h.2)]
    rw [if_pos hA]
    obtain ⟨hc1, hd1⟩ := array_loop_response_inv self
      (jsmnrpc_parse data.tokens data.request).2.length hhandlers
      (jsmnrpc_parse data.tokens data.request).2.length.toNat
      ⟨data.request,
        append_str_with_len ⟨data.response.data, 0, data.response.capacity⟩
          "[".toList SIZE_MAX,
        (jsmnrpc_parse data.tokens data.request).2⟩ 1
    dsimp only at hc1 hd1
    rw [append_capacity] at hc1
    rw [append_data_length] at hd1
    dsimp only at hc1 hd1
    generalize hg : jsmnrpc_handle_request_array_loop self
      (jsmnrpc_parse data.tokens data.request).2.length
      (jsmnrpc_parse data.tokens data.request).2.length.toNat
      ⟨data.request,
        append_str_with_len ⟨data.response.data, 0, data.response.capacity⟩
          "[".toList SIZE_MAX,
        (jsmnrpc_parse data.tokens data.request).2⟩ 1 = L at hc1 hd1 ⊢
    have hc2 : (append_str_with_len L.response "]".toList SIZE_MAX).capacity =
        data.response.capacity := by
      rw [append_capacity, hc1]
    have hd2 : (append_str_with_len L.response "]".toList SIZE_MAX).data.length =
        data.response.data.length := by
      rw [append_data_length, hd1]
    rw [if_pos (show (append_str_with_len L.response "]".toList SIZE_MAX).capacity > 0 from
      by omega)]
    by_cases hl : (append_str_with_len L.response "]".toList SIZE_MAX).length <
        (append_str_with_len L.response "]".toList SIZE_MAX).capacity
    · rw [if_pos hl]
      dsimp only
      rw [Nat.min_eq_left (by omega)]
      exact getD_set_self _ _ _ _ (by omega)
    · rw [if_neg hl]
      dsimp only
      rw [Nat.min_eq_right (by omega)]
      exact getD_set_self _ _ _ _ (by omega)

/-- C6 witness: the finalization statement applied at the concrete batch
`[1]` (an Array root) with an empty handler table. -/
theorem claim_C6_truncation_terminator_witness :
    (jsmnrpc_handle_request ⟨[]⟩ c4wdata).response.data.getD
      (min (jsmnrpc_handle_request ⟨[]⟩ c4wdata).response.length
        ((jsmnrpc_handle_request ⟨[]⟩ c4wdata).response.capacity - 1)) 'x' = nulChar :=
  claim_C6_truncation_terminator ⟨[]⟩ c4wdata (by decide)
    (Or.inr ⟨by decide, by decide⟩)
    (by intro h hm; exact absurd hm (List.not_mem_nil h)) (by decide) (by decide)

